import Mathlib

/-!
Shallow embedding of the negative-space gap-analysis core
(src/negative_space: core.py, mapping.py, clustering.py, navigation.py).

Modelling conventions:
* Python floats are modelled as rationals.
* Python dicts with string keys are modelled as association lists
  (`StateMap`); Python dicts have unique keys, so theorems that need it
  carry a `Nodup` hypothesis on the key list.
* Python set iteration (for example `b_keys - a_keys`) is modelled as a
  filter in key insertion order; every claim settled here is insensitive
  to that order.
* External libraries (networkx betweenness centrality and community
  detection, hashlib digests, datetime timestamps) are not code of this
  repository: centrality and community detection enter as function
  parameters, ids keep a fixed textual stub in place of the digest, and
  timestamps are omitted.  No settled claim depends on them.
-/

namespace NegSpace

/-- JSON-like scalar/sequence values of the state mappings (spec section 9
models them as a closed variant; the code stores arbitrary Python values
and only ever inspects `type(v).__name__` and numeric coercions). -/
inductive Value where
  | str (s : String)
  | int (n : Int)
  | float (q : Rat)
  | bool (b : Bool)
  | none
  | list (vs : List Value)
  | dict (kvs : List (String × Value))

/-- Python `type(v).__name__` on a `Value`. -/
def Value.typeName : Value → String
  | .str _ => "str"
  | .int _ => "int"
  | .float _ => "float"
  | .bool _ => "bool"
  | .none => "NoneType"
  | .list _ => "list"
  | .dict _ => "dict"

/-- Python `isinstance(v, (int, float))` together with the numeric value
(`bool` is an `int` subtype in Python, so it counts as numeric). -/
def Value.numVal : Value → Option Rat
  | .int n => some (n : Rat)
  | .float q => some q
  | .bool b => some (if b then 1 else 0)
  | _ => Option.none

/-- A state mapping (`Dict[str, Any]` in the code). -/
def StateMap := List (String × Value)

/-- The key list of a state mapping. -/
def StateMap.keys (m : StateMap) : List String := m.map Prod.fst

/-- Dict lookup; Python dicts have unique keys so the first hit is the
only one. -/
def StateMap.lookup : StateMap → String → Option Value
  | [], _ => Option.none
  | (k, v) :: rest, key => if k = key then some v else StateMap.lookup rest key

/-- core.py VoidType (auto-numbered enum, values 1..8). -/
inductive VoidType where
  | DEPENDENCY_GAP
  | INFORMATION_GAP
  | CONSTRAINT_GAP
  | CAPABILITY_GAP
  | CONCEPTUAL_GAP
  | CAUSAL_GAP
  | TEMPORAL_GAP
  | ETHICAL_GAP
deriving DecidableEq

/-- Python `.value` of the auto-numbered VoidType enum. -/
def VoidType.val : VoidType → Nat
  | .DEPENDENCY_GAP => 1
  | .INFORMATION_GAP => 2
  | .CONSTRAINT_GAP => 3
  | .CAPABILITY_GAP => 4
  | .CONCEPTUAL_GAP => 5
  | .CAUSAL_GAP => 6
  | .TEMPORAL_GAP => 7
  | .ETHICAL_GAP => 8

/-- Python `.name` of the VoidType enum. -/
def VoidType.name : VoidType → String
  | .DEPENDENCY_GAP => "DEPENDENCY_GAP"
  | .INFORMATION_GAP => "INFORMATION_GAP"
  | .CONSTRAINT_GAP => "CONSTRAINT_GAP"
  | .CAPABILITY_GAP => "CAPABILITY_GAP"
  | .CONCEPTUAL_GAP => "CONCEPTUAL_GAP"
  | .CAUSAL_GAP => "CAUSAL_GAP"
  | .TEMPORAL_GAP => "TEMPORAL_GAP"
  | .ETHICAL_GAP => "ETHICAL_GAP"

/-- core.py GapCertainty (auto-numbered enum, values 1..4). -/
inductive GapCertainty where
  | DEFINITE
  | HYPOTHESIZED
  | SPECULATIVE
  | EMERGENT
deriving DecidableEq

/-- core.py GapCriticality (auto-numbered enum: BLOCKING=1, HIGH=2,
MEDIUM=3, LOW=4, UNKNOWN=5). -/
inductive GapCriticality where
  | BLOCKING
  | HIGH
  | MEDIUM
  | LOW
  | UNKNOWN
deriving DecidableEq

/-- Python `.value` of the auto-numbered GapCriticality enum. -/
def GapCriticality.val : GapCriticality → Nat
  | .BLOCKING => 1
  | .HIGH => 2
  | .MEDIUM => 3
  | .LOW => 4
  | .UNKNOWN => 5

/-- Python `.name` of the GapCriticality enum. -/
def GapCriticality.name : GapCriticality → String
  | .BLOCKING => "BLOCKING"
  | .HIGH => "HIGH"
  | .MEDIUM => "MEDIUM"
  | .LOW => "LOW"
  | .UNKNOWN => "UNKNOWN"

/-- core.py VoidMap._gap_weight criticality table. -/
def critWeight : GapCriticality → Rat
  | .BLOCKING => 1
  | .HIGH => 7/10
  | .MEDIUM => 4/10
  | .LOW => 2/10
  | .UNKNOWN => 5/10

/-- core.py VoidMap._gap_weight certainty table. -/
def certWeight : GapCertainty → Rat
  | .DEFINITE => 1
  | .HYPOTHESIZED => 7/10
  | .SPECULATIVE => 3/10
  | .EMERGENT => 5/10

/-- The negative_shape dict computed by Gap.calculate_negative_shape
(field names kept; values are ints/floats in the code). -/
structure NegShape where
  dimensionality : Nat
  connectivity : Nat
  opacity : Rat
  edge_sharpness : Rat
  void_depth : Rat
deriving DecidableEq

/-- core.py Gap dataclass.  The discovery_time timestamp is omitted
(external clock); all other fields are kept with their defaults. -/
structure Gap where
  id : String
  description : String
  void_type : VoidType
  domains : List String
  evidence : List (List (String × String))
  manifestations : List String
  criticality : GapCriticality
  certainty : GapCertainty
  size : Rat := 1/2
  clarity : Rat := 1/2
  dependencies : List String := []
  blockers : List String := []
  discovered_by : String := "unknown"
  fillable : Bool := true
  fill_methods : List String := []
  fill_cost : Rat := 0
  fill_time : Rat := 0
  negative_shape : Option NegShape := Option.none
  boundary_conditions : List String := []
deriving DecidableEq

/-- Gap._estimate_dimensionality. -/
def Gap.estimateDimensionality (g : Gap) : Nat :=
  min 5 (g.domains.dedup.length + g.manifestations.dedup.length)

/-- Gap._calculate_edge_sharpness. -/
def Gap.calculateEdgeSharpness (g : Gap) : Rat :=
  (g.clarity + min 1 ((g.evidence.length : Rat) / 5)) / 2

/-- Gap.calculate_negative_shape (the Python method mutates the gap;
here it returns the updated gap).  `hasattr(criticality, "value")` is
always true for the enum, so void_depth is size times the enum value. -/
def Gap.calculateNegativeShape (g : Gap) : Gap :=
  let shape : NegShape :=
    ⟨g.estimateDimensionality, g.dependencies.length, 1 - g.clarity,
      g.calculateEdgeSharpness, g.size * (g.criticality.val : Rat)⟩
  { g with negative_shape := some shape }

/-- core.py VoidMap (timestamp omitted; the networkx graph is kept as
the labelled edge list produced by build_gap_network). -/
structure VoidMap where
  id : String
  point_a : StateMap
  point_b : StateMap
  gaps : List Gap := []
  edges : List (String × String × String) := []
  void_density : Rat := 0
  connectivity : Rat := 0
  navigability : Rat := 0
  discovery_method : String := "unknown"
  exploration_depth : Nat := 0
  confidence : Rat := 0

/-- core.py VoidMap._gap_weight (criticality weight times certainty
weight; the dict lookups always hit, the 0.5 defaults are dead). -/
def gapWeight (g : Gap) : Rat := critWeight g.criticality * certWeight g.certainty

/-- core.py VoidMap._estimate_possible_gaps. -/
def estimatePossibleGaps (vm : VoidMap) : List String :=
  let aKeys := vm.point_a.keys
  let bKeys := vm.point_b.keys
  let missing := (bKeys.filter (fun k => ¬ k ∈ aKeys)).map (fun k => "missing_" ++ k ++ "_in_a")
  let shared := aKeys.filter (fun k => k ∈ bKeys)
  let mismatches := (shared.filter (fun k =>
      ((vm.point_a.lookup k).getD .none).typeName ≠ ((vm.point_b.lookup k).getD .none).typeName)).map
    (fun k => "type_mismatch_" ++ k)
  let valueGaps := (shared.filter (fun k =>
      match ((vm.point_a.lookup k).getD .none).numVal, ((vm.point_b.lookup k).getD .none).numVal with
      | some x, some y => |x - y| > 0
      | _, _ => False)).map (fun k => "value_gap_" ++ k)
  missing ++ mismatches ++ valueGaps

/-- core.py VoidMap.calculate_void_density. -/
def calculateVoidDensity (vm : VoidMap) : Rat :=
  if vm.gaps.isEmpty then 0
  else
    let totalWeight := (vm.gaps.map gapWeight).sum
    let estimated := (estimatePossibleGaps vm).length
    if estimated > 0 then min 1 (totalWeight / (estimated : Rat))
    else totalWeight / 10

/-- core.py VoidMap._are_gaps_related (early returns written as a
boolean disjunction; domain overlap is nonempty set intersection). -/
def areGapsRelated (g1 g2 : Gap) : Bool :=
  g1.void_type = g2.void_type
    || (g1.void_type = .DEPENDENCY_GAP
        && (g2.void_type = .CAPABILITY_GAP || g2.void_type = .INFORMATION_GAP))
    || (g1.void_type = .CAUSAL_GAP && g2.void_type = .INFORMATION_GAP)
    || g1.domains.any (fun d => d ∈ g2.domains)

/-- core.py VoidMap._determine_relationship. -/
def determineRelationship (g1 g2 : Gap) : String :=
  if g1.void_type = g2.void_type then "sibling"
  else if g1.void_type = .DEPENDENCY_GAP ∧ g2.void_type = .CAPABILITY_GAP then "requires_capability"
  else if g1.void_type = .INFORMATION_GAP ∧ g2.void_type = .CAUSAL_GAP then "informs_causality"
  else "related"

/-- The edge list built by the double loop of VoidMap.build_gap_network:
for every i < j with related gaps, one edge labelled by
_determine_relationship. -/
def buildEdges : List Gap → List (String × String × String)
  | [] => []
  | g :: rest =>
      (rest.filter (fun h => areGapsRelated g h)).map
          (fun h => (g.id, h.id, determineRelationship g h))
        ++ buildEdges rest

/-- Node count of the networkx graph: one node per distinct gap id. -/
def nodeCount (gaps : List Gap) : Nat := (gaps.map Gap.id).dedup.length

/-- networkx graph density for an undirected graph (0 when n is 0 or 1). -/
def nxDensity (n m : Nat) : Rat :=
  if n ≤ 1 then 0 else (2 * (m : Rat)) / ((n : Rat) * ((n : Rat) - 1))

/-- Python `max` over a list of rationals (callers guard non-emptiness;
the empty case yields 0 to stay total). -/
def qMax : List Rat → Rat
  | [] => 0
  | q :: rest => rest.foldl max q

/-- core.py VoidMap.build_gap_network.  `betw` stands for the external
networkx betweenness_centrality call (nodes and edges in, centrality
dict out); the try/except fallback to 0.5 is unreachable for a total
function and is not modelled. -/
def buildGapNetwork (betw : List String → List (String × String × String) → List (String × Rat))
    (vm : VoidMap) : VoidMap :=
  let es := buildEdges vm.gaps
  if vm.gaps.isEmpty then { vm with edges := es }
  else
    let cents := betw (vm.gaps.map Gap.id) es
    { vm with
      edges := es
      connectivity := nxDensity (nodeCount vm.gaps) es.length
      navigability := 1 - (if cents.isEmpty then 0 else qMax (cents.map Prod.snd)) }

/-- Character-list version of the Python `needle in haystack` substring
test: does the second list start with the first one. -/
def csStartsWith : List Char → List Char → Bool
  | [], _ => true
  | _ :: _, [] => false
  | c :: cs, d :: ds => c = d && csStartsWith cs ds

/-- Substring containment on character lists. -/
def csContains : List Char → List Char → Bool
  | n, [] => n.isEmpty
  | n, h :: hs => csStartsWith n (h :: hs) || csContains n hs

/-- Python `needle in haystack` on strings. -/
def strIn (needle hay : String) : Bool := csContains needle.data hay.data

/-- The context mapping as consumed by the embedded code: only its
`domain_mappings` table (domain name to keyword list) is ever read
by the strategies present in the source, so the model keeps just that
(absent table = context without the key or no context at all). -/
def Context := Option (List (String × List String))

/-- mapping.py VoidMappingEngine._infer_domains. -/
def inferDomains (key : String) (ctx : Context) : List String :=
  "general" ::
    (match ctx with
      | Option.none => []
      | some dm =>
          (dm.filter (fun p => p.2.any (fun kw => strIn kw key.toLower))).map Prod.fst)

/-- The gap emitted by _contrastive_analysis for a key present in B but
missing in A. -/
def mkMissingGap (key : String) (ctx : Context) : Gap :=
  { id := "missing_attr_" ++ key
    description := "Attribute \x27" ++ key ++ "\x27 exists in B but not in A"
    void_type := .DEPENDENCY_GAP
    domains := inferDomains key ctx
    evidence := [[("type", "direct_comparison"), ("key", key)]]
    manifestations := ["Missing " ++ key ++ " attribute"]
    criticality := .UNKNOWN
    certainty := .DEFINITE }

/-- The gap emitted by _contrastive_analysis for a shared key whose
value types differ. -/
def mkMismatchGap (key : String) (aType bType : String) (ctx : Context) : Gap :=
  { id := "type_mismatch_" ++ key
    description := "Type mismatch for \x27" ++ key ++ "\x27: " ++ aType ++ " in A vs " ++ bType ++ " in B"
    void_type := .DEPENDENCY_GAP
    domains := inferDomains key ctx
    evidence := [[("type", "type_comparison"), ("key", key), ("a_type", aType), ("b_type", bType)]]
    manifestations := ["Type conversion needed for " ++ key]
    criticality := .MEDIUM
    certainty := .DEFINITE }

/-- Keys present in B but absent in A (the `b_keys - a_keys` loop). -/
def extraKeys (a b : StateMap) : List String :=
  b.keys.filter (fun k => ¬ k ∈ a.keys)

/-- Shared keys (the `a_keys & b_keys` loop). -/
def sharedKeys (a b : StateMap) : List String :=
  a.keys.filter (fun k => k ∈ b.keys)

/-- Python `type(...).__name__` of the value stored under a key. -/
def keyTypeName (m : StateMap) (k : String) : String :=
  ((m.lookup k).getD .none).typeName

/-- mapping.py VoidMappingEngine._contrastive_analysis: one
DEPENDENCY_GAP per key missing in A, then one DEPENDENCY_GAP per shared
key whose value types differ. -/
def contrastiveAnalysis (a b : StateMap) (ctx : Context) : List Gap :=
  (extraKeys a b).map (fun k => mkMissingGap k ctx)
    ++ ((sharedKeys a b).filter (fun k => keyTypeName a k ≠ keyTypeName b k)).map
        (fun k => mkMismatchGap k (keyTypeName a k) (keyTypeName b k) ctx)

/-- The other four discovery methods of mapping.py are pluggable no-ops
in the source (each returns the empty list). -/
def dependencyWalk (_a _b : StateMap) (_ctx : Context) : List Gap := []

/-- constraint_propagation discovery stub (returns no gaps in the source). -/
def constraintPropagation (_a _b : StateMap) (_ctx : Context) : List Gap := []

/-- counterfactual_exploration discovery stub (returns no gaps in the source). -/
def counterfactualExploration (_a _b : StateMap) (_ctx : Context) : List Gap := []

/-- boundary_probing discovery stub (returns no gaps in the source). -/
def boundaryProbing (_a _b : StateMap) (_ctx : Context) : List Gap := []

/-- Drop leading whitespace characters. -/
def dropLeadingWs : List Char → List Char
  | [] => []
  | c :: cs => if c.isWhitespace then dropLeadingWs cs else c :: cs

/-- Python `str.strip()` on a character list: drop whitespace from both
ends. -/
def trimChars (l : List Char) : List Char :=
  dropLeadingWs (dropLeadingWs l.reverse).reverse

/-- The normalisation applied by _deduplicate_gaps:
`description.lower().strip()`, on the character list (character-wise
lowering matches Python for the ASCII descriptions the engine builds). -/
def normDesc (g : Gap) : List Char := trimChars (g.description.data.map Char.toLower)

/-- mapping.py VoidMappingEngine._deduplicate_gaps, with the seen set
made explicit. -/
def dedupAux : List Gap → List (List Char) → List Gap
  | [], _ => []
  | g :: rest, seen =>
      if normDesc g ∈ seen then dedupAux rest seen
      else g :: dedupAux rest (normDesc g :: seen)

/-- mapping.py VoidMappingEngine._deduplicate_gaps. -/
def dedupGaps (gaps : List Gap) : List Gap := dedupAux gaps []

/-- Stable descending insertion on a rational measure (models Python
`list.sort(key=f, reverse=True)`, which is stable). -/
def insertDescBy (f : α → Rat) (a : α) : List α → List α
  | [] => [a]
  | b :: l => if f a < f b then b :: insertDescBy f a l else a :: b :: l

/-- Stable descending sort on a rational measure. -/
def sortDescBy (f : α → Rat) : List α → List α
  | [] => []
  | a :: l => insertDescBy f a (sortDescBy f l)

/-- Stable ascending insertion on a rational measure (models Python
`list.sort(key=f)`). -/
def insertAscBy (f : α → Rat) (a : α) : List α → List α
  | [] => [a]
  | b :: l => if f b < f a then b :: insertAscBy f a l else a :: b :: l

/-- Stable ascending sort on a rational measure. -/
def sortAscBy (f : α → Rat) : List α → List α
  | [] => []
  | a :: l => insertAscBy f a (sortAscBy f l)

/-- The sort key of map_void: `g.criticality.value` (the hasattr guard
is always true for the enum), as a rational for the generic sort. -/
def critValQ (g : Gap) : Rat := (g.criticality.val : Rat)

/-- The concatenated output of the five discovery strategies of
map_void, in registration order (the try/except around each method is
unreachable for total functions). -/
def allDiscoveredGaps (a b : StateMap) (ctx : Context) : List Gap :=
  contrastiveAnalysis a b ctx ++ dependencyWalk a b ctx
    ++ constraintPropagation a b ctx ++ counterfactualExploration a b ctx
    ++ boundaryProbing a b ctx

/-- The deduplicated, shape-assessed, criticality-sorted gap list that
map_void attaches to the void map. -/
def assessedGaps (a b : StateMap) (ctx : Context) : List Gap :=
  sortDescBy critValQ ((dedupGaps (allDiscoveredGaps a b ctx)).map Gap.calculateNegativeShape)

/-- mapping.py VoidMappingEngine.map_void.  The sha256 digest of the id
is external (hashlib) and replaced by a fixed textual stub; the
timestamp and the diagnostic mapping_history are omitted. -/
def preVoidMap (a b : StateMap) (ctx : Context) : VoidMap :=
  { id := "void_map_digest", point_a := a, point_b := b, gaps := assessedGaps a b ctx }

/-- mapping.py VoidMappingEngine.map_void, continued: build the graph
over the discovered gaps and compute the density. -/
def mapVoid (betw : List String → List (String × String × String) → List (String × Rat))
    (a b : StateMap) (ctx : Context) : VoidMap :=
  let vm2 := buildGapNetwork betw (preVoidMap a b ctx)
  { vm2 with void_density := calculateVoidDensity vm2 }

/-- The semantic feature vector of clustering.py
_extract_semantic_features (fixed keys: type, criticality, certainty,
size, clarity, fillable and four domain indicators). -/
structure GapFeatures where
  ftype : Rat
  fcrit : Rat
  fcert : Rat
  fsize : Rat
  fclarity : Rat
  ffillable : Rat
  dFinancial : Rat
  dTemporal : Rat
  dCapability : Rat
  dInformation : Rat
deriving DecidableEq

/-- clustering.py VoidClusterer._criticality_to_float. -/
def critToFloat : GapCriticality → Rat
  | .BLOCKING => 1
  | .HIGH => 75/100
  | .MEDIUM => 5/10
  | .LOW => 25/100
  | .UNKNOWN => 5/10

/-- clustering.py VoidClusterer._certainty_to_float. -/
def certToFloat : GapCertainty → Rat
  | .DEFINITE => 1
  | .HYPOTHESIZED => 7/10
  | .SPECULATIVE => 3/10
  | .EMERGENT => 5/10

/-- `list(VoidType).index(t)` (0-based position in declaration order). -/
def VoidType.idx : VoidType → Nat
  | .DEPENDENCY_GAP => 0
  | .INFORMATION_GAP => 1
  | .CONSTRAINT_GAP => 2
  | .CAPABILITY_GAP => 3
  | .CONCEPTUAL_GAP => 4
  | .CAUSAL_GAP => 5
  | .TEMPORAL_GAP => 6
  | .ETHICAL_GAP => 7

/-- clustering.py VoidClusterer._extract_semantic_features. -/
def extractFeatures (g : Gap) : GapFeatures :=
  { ftype := (g.void_type.idx : Rat) / 8
    fcrit := critToFloat g.criticality
    fcert := certToFloat g.certainty
    fsize := g.size
    fclarity := g.clarity
    ffillable := if g.fillable then 1 else 0
    dFinancial := if "financial" ∈ g.domains then 1 else 0
    dTemporal := if "temporal" ∈ g.domains then 1 else 0
    dCapability := if "capability" ∈ g.domains then 1 else 0
    dInformation := if "information" ∈ g.domains then 1 else 0 }

/-- Jaccard overlap of two string lists viewed as sets (0 when the
guard in the source fails). -/
def jaccard (xs ys : List String) : Rat :=
  let s1 := xs.dedup
  let s2 := ys.dedup
  let inter := (s1.filter (fun x => x ∈ s2)).length
  let union := (s1 ++ s2.filter (fun y => ¬ y ∈ s1)).length
  if union = 0 then 0 else (inter : Rat) / (union : Rat)

/-- Python `description.lower().split()`: whitespace split dropping
empty pieces. -/
def descWords (g : Gap) : List String :=
  (g.description.toLower.split Char.isWhitespace).filter (fun w => w ≠ "")

/-- clustering.py VoidClusterer._gap_similarity.  The domain guard in
the source is `if domains1 or domains2` and the word guard is
`if words1 and words2`; both zero cases are reproduced by `jaccard`
except the word case where one side may be nonempty, handled here. -/
def gapSimilarity (g1 g2 : Gap) : Rat :=
  let typeSim : Rat := if g1.void_type = g2.void_type then 1 else 3/10
  let domainSim := jaccard g1.domains g2.domains
  let wordSim := if (descWords g1).isEmpty ∨ (descWords g2).isEmpty then 0
    else jaccard (descWords g1) (descWords g2)
  typeSim * (4/10) + domainSim * (3/10) + wordSim * (3/10)

/-- Field-wise mean of feature vectors (np.mean per key); callers
guarantee non-emptiness. -/
def meanFeatures (fs : List GapFeatures) : GapFeatures :=
  let n : Rat := (fs.length : Rat)
  let avg := fun (sel : GapFeatures → Rat) => (fs.map sel).sum / n
  { ftype := avg GapFeatures.ftype
    fcrit := avg GapFeatures.fcrit
    fcert := avg GapFeatures.fcert
    fsize := avg GapFeatures.fsize
    fclarity := avg GapFeatures.fclarity
    ffillable := avg GapFeatures.ffillable
    dFinancial := avg GapFeatures.dFinancial
    dTemporal := avg GapFeatures.dTemporal
    dCapability := avg GapFeatures.dCapability
    dInformation := avg GapFeatures.dInformation }

/-- Summed absolute feature deviation from the centroid. -/
def featDiff (f c : GapFeatures) : Rat :=
  |f.ftype - c.ftype| + |f.fcrit - c.fcrit| + |f.fcert - c.fcert|
    + |f.fsize - c.fsize| + |f.fclarity - c.fclarity| + |f.ffillable - c.ffillable|
    + |f.dFinancial - c.dFinancial| + |f.dTemporal - c.dTemporal|
    + |f.dCapability - c.dCapability| + |f.dInformation - c.dInformation|

/-- First-occurrence deduplication (Python dict/set insertion order). -/
def firstDedupAux [DecidableEq α] : List α → List α → List α
  | _, [] => []
  | seen, a :: rest =>
      if a ∈ seen then firstDedupAux seen rest
      else a :: firstDedupAux (a :: seen) rest

/-- First-occurrence deduplication of a list. -/
def firstDedup [DecidableEq α] (l : List α) : List α := firstDedupAux [] l

/-- Python `max(type_counts.items(), key=count)`: first type (in first
occurrence order) with the strictly greatest member count;
INFORMATION_GAP is the source fallback for the empty case. -/
def dominantType (gaps : List Gap) : VoidType :=
  let count := fun (t : VoidType) => (gaps.filter (fun g => g.void_type = t)).length
  match firstDedup (gaps.map Gap.void_type) with
  | [] => .INFORMATION_GAP
  | t :: rest => rest.foldl (fun best u => if count best < count u then u else best) t

/-- core.py GapCluster (fill_sequence keeps its empty default; the
sha256 digest in the id is external and replaced by a textual stub). -/
structure GapCluster where
  id : String
  gaps : List Gap
  centroid : Option GapFeatures
  density : Rat
  boundary : List String
  core_gaps : List Gap
  cluster_type : VoidType
  strategic_importance : Rat := 0
  fill_sequence : List String := []
deriving DecidableEq

/-- clustering.py VoidClusterer._create_cluster. -/
def createCluster (gaps : List Gap) (ctype : String) : GapCluster :=
  let centroid := if gaps.isEmpty then Option.none
    else some (meanFeatures (gaps.map extractFeatures))
  let diffs := gaps.map (fun g =>
    (g, match centroid with
        | some c => featDiff (extractFeatures g) c
        | Option.none => 0))
  let sortedDesc := sortDescBy Prod.snd diffs
  let boundary := if gaps.length > 1
    then (sortedDesc.take (min 3 gaps.length)).map (fun p => p.1.id) else []
  let core := if gaps.length > 1
    then ((sortAscBy Prod.snd sortedDesc).take (min 3 gaps.length)).map Prod.fst else []
  { id := "cluster_" ++ ctype ++ "_digest"
    gaps := gaps
    centroid := centroid
    density := (gaps.length : Rat) / 10
    boundary := boundary
    core_gaps := core
    cluster_type := dominantType gaps }

/-- Python `max(...)` of the criticality enum values of the members
(`g.criticality.value`; the hasattr guard is always true). -/
def maxCritVal : List Gap → Rat
  | [] => 0
  | g :: rest => rest.foldl (fun m h => max m (critValQ h)) (critValQ g)

/-- core.py GapCluster.calculate_strategic_importance (the Python
method mutates the cluster; here it returns the updated cluster). -/
def calcStrategicImportance (c : GapCluster) : GapCluster :=
  if c.gaps.isEmpty then { c with strategic_importance := 0 }
  else { c with strategic_importance := maxCritVal c.gaps * c.density }

/-- The inner absorption pass of _semantic_clustering: scan the rest of
the gap list, absorbing unused gaps with similarity above 0.6. -/
def semAbsorb (g : Gap) : List Gap → List Gap × List String → List Gap × List String
  | [], acc => acc
  | h :: hs, (members, used) =>
      if h.id ∈ used then semAbsorb g hs (members, used)
      else if gapSimilarity g h > 6/10 then
        semAbsorb g hs (members ++ [h], h.id :: used)
      else semAbsorb g hs (members, used)

/-- The outer loop of _semantic_clustering: greedy single-pass grouping
with a shared used set. -/
def semGroups : List Gap → List String → List (List Gap)
  | [], _ => []
  | g :: rest, used =>
      if g.id ∈ used then semGroups rest used
      else
        let (members, used2) := semAbsorb g rest ([g], g.id :: used)
        members :: semGroups rest used2

/-- clustering.py VoidClusterer._semantic_clustering: greedy grouping,
clusters sorted by size descending, truncated to n_clusters. -/
def semanticClustering (nClusters : Nat) (vm : VoidMap) : List GapCluster :=
  if vm.gaps.isEmpty then []
  else
    let clusters := (semGroups vm.gaps []).map (fun gs => createCluster gs "semantic")
    (sortDescBy (fun c => ((c.gaps.length : Rat))) clusters).take nClusters

/-- One community of _structural_clustering: resolve the node ids to
gaps (the `next(...)` lookup takes the first gap with the id) and build
a cluster when any survive. -/
def structuralCluster (vm : VoidMap) (comm : List String) : Option GapCluster :=
  let communityGaps := comm.filterMap (fun gid => vm.gaps.find? (fun g => g.id = gid))
  if communityGaps.isEmpty then Option.none
  else some (createCluster communityGaps "structural")

/-- clustering.py VoidClusterer._structural_clustering.  `detect`
stands for the external networkx greedy_modularity_communities call
(node list and edge list in, communities of node ids out); its
try/except fallback to semantic clustering is unreachable for a total
function. -/
def structuralClustering
    (detect : List String → List (String × String × String) → List (List String))
    (nClusters : Nat) (vm : VoidMap) : List GapCluster :=
  if vm.gaps.isEmpty then []
  else
    ((detect (vm.gaps.map Gap.id) vm.edges).take nClusters).filterMap
      (fun comm => structuralCluster vm comm)

/-- The defaultdict grouping of _strategic_clustering: buckets keyed by
type name and criticality name, in first-occurrence order, members in
original order. -/
def strategicGroupsAux (groups : List (String × List Gap)) (g : Gap) : List (String × List Gap) :=
  let key := g.void_type.name ++ "_" ++ g.criticality.name
  if groups.any (fun p => p.1 = key) then
    groups.map (fun p => if p.1 = key then (p.1, p.2 ++ [g]) else p)
  else groups ++ [(key, [g])]

/-- Group gaps by (void type, criticality) bucket. -/
def strategicGroups (gaps : List Gap) : List (String × List Gap) :=
  gaps.foldl strategicGroupsAux []

/-- clustering.py VoidClusterer._strategic_clustering: one cluster per
non-empty bucket, sorted by strategic_importance (all still at the
default 0 at this point, as in the source) and truncated. -/
def strategicClustering (nClusters : Nat) (vm : VoidMap) : List GapCluster :=
  let clusters := (strategicGroups vm.gaps).map (fun p => createCluster p.2 "strategic")
  (sortDescBy GapCluster.strategic_importance clusters).take nClusters

/-- The fallback of cluster_gaps: an unregistered method name is
replaced by "semantic". -/
def pickMethod (method : String) : String :=
  if method ∈ ["semantic", "structural", "strategic"] then method else "semantic"

/-- clustering.py VoidClusterer.cluster_gaps: empty map short-circuit,
unknown method falls back to semantic, strategic importance is computed
on every returned cluster afterwards. -/
def clusterGaps
    (detect : List String → List (String × String × String) → List (List String))
    (nClusters : Nat) (vm : VoidMap) (method : String) : List GapCluster :=
  if vm.gaps.isEmpty then []
  else
    let clusters :=
      if pickMethod method = "semantic" then semanticClustering nClusters vm
      else if pickMethod method = "structural" then structuralClustering detect nClusters vm
      else strategicClustering nClusters vm
    clusters.map calcStrategicImportance

/-- One entry of a navigation path.  The Python strategies emit dicts
with per-strategy keys; the union of those keys is modelled with
optional fields (a field is `some` exactly when the strategy emits the
key). -/
structure PathStep where
  gapId : String
  description : String
  action : String
  estimatedCost : Option Rat := Option.none
  estimatedTime : Option Rat := Option.none
  rationale : Option String := Option.none
  bridgeType : Option String := Option.none
  boundaryConditions : Option (List String) := Option.none
  circumvention : Option String := Option.none
  risk : Option String := Option.none
deriving DecidableEq

/-- A navigation plan (union of the per-strategy result dict keys). -/
structure NavPlan where
  strategy : String
  path : List PathStep
  summary : String
  totalEstimatedCost : Option Rat := Option.none
  totalEstimatedTime : Option Rat := Option.none
  coreGapsAvoided : Option Nat := Option.none
  bridgingTechnique : Option String := Option.none
  warning : Option String := Option.none
deriving DecidableEq

/-- The deduplicated directed dependency edge list of _gap_hopping
(one edge dep -> gap.id per dependency that is itself a known gap id;
the networkx DiGraph collapses duplicates). -/
def hopEdges (gaps : List Gap) : List (String × String) :=
  firstDedup (gaps.flatMap (fun g =>
    (g.dependencies.filter (fun d => d ∈ gaps.map Gap.id)).map (fun d => (d, g.id))))

/-- In-degree of a node in the dependency graph. -/
def inDeg (es : List (String × String)) (x : String) : Nat :=
  (es.filter (fun e => e.2 = x)).length

/-- Successor node ids of a node. -/
def succsOf (es : List (String × String)) (x : String) : List String :=
  (es.filter (fun e => e.1 = x)).map Prod.snd

/-- Predecessor node ids of a node. -/
def predsOf (es : List (String × String)) (y : String) : List String :=
  (es.filter (fun e => e.2 = y)).map Prod.fst

/-- The networkx node attribute lookup `nodes[id]["gap"]`: the last
add_node call for an id wins. -/
def nodeGap (gaps : List Gap) (y : String) : Option Gap :=
  (gaps.filter (fun g => g.id = y)).getLast?

/-- The path entry appended by _gap_hopping. -/
def mkHopStep (g : Gap) : PathStep :=
  { gapId := g.id
    description := g.description
    action := "Fill " ++ g.void_type.name ++ " gap"
    estimatedCost := some g.fill_cost
    estimatedTime := some g.fill_time }

/-- The while loop of _gap_hopping: pop the head of the ready queue,
skip it when already filled, otherwise append a path step, promote
successors whose predecessors are now all filled, and re-sort the
queue by gap weight descending.  Fuel bounds the iteration count; the
caller passes enough for the loop to drain (each gap is seeded at most
once and promoted at most once). -/
def hopLoop (gaps : List Gap) (es : List (String × String)) :
    Nat → List Gap → List String → List PathStep → List PathStep
  | 0, _, _, path => path
  | _ + 1, [], _, path => path
  | fuel + 1, g :: rest, filled, path =>
      if g.id ∈ filled then hopLoop gaps es fuel rest filled path
      else
        let filled2 := g.id :: filled
        let promoted := (succsOf es g.id).filterMap (fun y =>
          if (predsOf es y).all (fun p => p ∈ filled2) then nodeGap gaps y else Option.none)
        hopLoop gaps es fuel (sortDescBy gapWeight (rest ++ promoted)) filled2
          (path ++ [mkHopStep g])

/-- navigation.py VoidNavigationEngine._gap_hopping. -/
def gapHopping (vm : VoidMap) : NavPlan :=
  if vm.gaps.isEmpty then
    { strategy := "gap_hopping", path := [], summary := "No gaps to navigate" }
  else
    let es := hopEdges vm.gaps
    let startGaps := vm.gaps.filter (fun g => g.fillable && inDeg es g.id = 0)
    let path := hopLoop vm.gaps es (2 * vm.gaps.length + 1)
      (sortDescBy gapWeight startGaps) [] []
    { strategy := "gap_hopping"
      path := path
      summary := "Navigate by filling " ++ toString path.length ++ " gaps in sequence"
      totalEstimatedCost := some ((path.map (fun p => p.estimatedCost.getD 0)).sum)
      totalEstimatedTime := some ((path.map (fun p => p.estimatedTime.getD 0)).sum) }

/-- np.median of a rational list (average of the two middle elements
for even length; 0 for the empty list, which callers guard). -/
def medianQ (l : List Rat) : Rat :=
  let s := sortAscBy id l
  let n := s.length
  if n = 0 then 0
  else if n % 2 = 1 then s.getD (n / 2) 0
  else (s.getD (n / 2 - 1) 0 + s.getD (n / 2) 0) / 2

/-- navigation.py VoidNavigationEngine._boundary_skirting.  `betw` is
the external betweenness centrality (as in build_gap_network); core
gaps are those strictly above the median centrality, the path takes the
first five peripheral node ids and keeps the fillable ones. -/
def boundarySkirting
    (betw : List String → List (String × String × String) → List (String × Rat))
    (vm : VoidMap) : NavPlan :=
  if vm.gaps.isEmpty then
    { strategy := "boundary_skirting", path := [], summary := "No gap network" }
  else
    let cents := betw (vm.gaps.map Gap.id) vm.edges
    let med := medianQ (cents.map Prod.snd)
    let coreGaps := (cents.filter (fun p => p.2 > med)).map Prod.fst
    let peripheral := (vm.gaps.map Gap.id).filter (fun x => ¬ x ∈ coreGaps)
    let path := (peripheral.take 5).filterMap (fun gid =>
      match vm.gaps.find? (fun g => g.id = gid) with
      | some g =>
          if g.fillable then some
            { gapId := gid
              description := g.description
              action := "Address peripheral " ++ g.void_type.name ++ " gap"
              rationale := some "Lower centrality makes this easier to address" }
          else Option.none
      | Option.none => Option.none)
    { strategy := "boundary_skirting"
      path := path
      summary := "Navigate by addressing " ++ toString path.length ++ " peripheral gaps first"
      coreGapsAvoided := some coreGaps.length }

/-- navigation.py VoidNavigationEngine._suggest_bridge_type. -/
def suggestBridgeType (g : Gap) : String :=
  if g.void_type = .INFORMATION_GAP then "information_pipeline"
  else if g.void_type = .DEPENDENCY_GAP then "dependency_interface"
  else if g.void_type = .CAPABILITY_GAP then "capability_proxy"
  else if g.void_type = .CONCEPTUAL_GAP then "conceptual_metaphor"
  else "general_bridge"

/-- navigation.py VoidNavigationEngine._void_bridging. -/
def voidBridging (vm : VoidMap) : NavPlan :=
  let bridgeable := vm.gaps.filter (fun g => ¬ g.boundary_conditions.isEmpty && g.fillable)
  let top := (sortDescBy Gap.clarity bridgeable).take 3
  let path := top.map (fun g =>
    { gapId := g.id
      description := g.description
      action := "Bridge " ++ g.void_type.name ++ " gap"
      bridgeType := some (suggestBridgeType g)
      boundaryConditions := some g.boundary_conditions : PathStep })
  { strategy := "void_bridging"
    path := path
    summary := "Navigate by bridging " ++ toString path.length ++ " clear-boundary gaps"
    bridgingTechnique := some "Identify and connect boundary conditions" }

/-- navigation.py VoidNavigationEngine._suggest_circumventions. -/
def suggestCircumventions (g : Gap) : List String :=
  let d := g.description.toLower
  if strIn "resource" d then
    ["resource_sharing", "efficiency_improvement", "alternative_resource", "phased_approach"]
  else if strIn "time" d then
    ["parallel_processing", "critical_path_optimization", "milestone_revision",
      "time_extension_request"]
  else if strIn "legal" d || strIn "ethical" d then
    ["alternative_approach", "stakeholder_negotiation", "regulatory_consultation",
      "compliance_demonstration"]
  else
    ["workaround_development", "requirement_relaxation", "alternative_solution",
      "problem_redefinition"]

/-- navigation.py VoidNavigationEngine._constraint_circumvention. -/
def constraintCircumvention (vm : VoidMap) : NavPlan :=
  let constraintGaps := vm.gaps.filter (fun g => g.void_type = .CONSTRAINT_GAP)
  if constraintGaps.isEmpty then
    { strategy := "constraint_circumvention", path := [],
      summary := "No constraint gaps to circumvent" }
  else
    let path := constraintGaps.flatMap (fun g =>
      ((suggestCircumventions g).take 2).map (fun c =>
        { gapId := g.id
          description := g.description
          action := "Circumvent " ++ g.void_type.name ++ " constraint"
          circumvention := some c
          risk := some "moderate" : PathStep }))
    { strategy := "constraint_circumvention"
      path := path
      summary := "Navigate by circumventing " ++ toString constraintGaps.length ++ " constraints"
      warning := some "Circumvention may introduce new risks" }

/-- navigation.py VoidNavigationEngine.navigate_void: unknown strategy
names are replaced by gap_hopping (with only a log warning), then the
strategy table dispatches.  The diagnostic navigation_history append is
omitted. -/
def navigateVoid
    (betw : List String → List (String × String × String) → List (String × Rat))
    (vm : VoidMap) (strategy : String) : NavPlan :=
  let s := if strategy ∈ ["gap_hopping", "boundary_skirting", "void_bridging",
      "constraint_circumvention"] then strategy else "gap_hopping"
  if s = "boundary_skirting" then boundarySkirting betw vm
  else if s = "void_bridging" then voidBridging vm
  else if s = "constraint_circumvention" then constraintCircumvention vm
  else gapHopping vm

/-! Helper lemmas about the sorting and deduplication primitives. -/

theorem insertDescBy_perm (f : α → Rat) (a : α) (l : List α) :
    (insertDescBy f a l).Perm (a :: l) := by
  induction l with
  | nil => exact List.Perm.refl _
  | cons b t ih =>
      unfold insertDescBy
      split
      · exact (ih.cons b).trans (List.Perm.swap a b t)
      · exact List.Perm.refl _

theorem sortDescBy_perm (f : α → Rat) (l : List α) : (sortDescBy f l).Perm l := by
  induction l with
  | nil => exact List.Perm.refl _
  | cons a t ih => exact (insertDescBy_perm f a (sortDescBy f t)).trans (ih.cons a)

theorem mem_sortDescBy {f : α → Rat} {l : List α} {x : α} :
    x ∈ sortDescBy f l ↔ x ∈ l := (sortDescBy_perm f l).mem_iff

theorem insertDescBy_pairwise {f : α → Rat} {a : α} {l : List α}
    (h : l.Pairwise (fun x y => f y ≤ f x)) :
    (insertDescBy f a l).Pairwise (fun x y => f y ≤ f x) := by
  induction l with
  | nil => simp [insertDescBy]
  | cons b t ih =>
      rw [List.pairwise_cons] at h
      unfold insertDescBy
      split
      · rename_i hlt
        rw [List.pairwise_cons]
        refine ⟨fun y hy => ?_, ih h.2⟩
        rcases List.mem_cons.mp ((insertDescBy_perm f a t).mem_iff.mp hy) with hya | hyt
        · exact le_of_lt (hya ▸ hlt)
        · exact h.1 y hyt
      · rename_i hge
        rw [List.pairwise_cons]
        refine ⟨fun y hy => ?_, List.pairwise_cons.mpr h⟩
        rcases List.mem_cons.mp hy with hyb | hyt
        · exact hyb ▸ le_of_not_lt hge
        · exact le_trans (h.1 y hyt) (le_of_not_lt hge)

theorem sortDescBy_pairwise (f : α → Rat) (l : List α) :
    (sortDescBy f l).Pairwise (fun x y => f y ≤ f x) := by
  induction l with
  | nil => simp [sortDescBy]
  | cons a t ih => exact insertDescBy_pairwise ih

theorem dedupAux_sublist : ∀ (l : List Gap) (seen : List (List Char)),
    (dedupAux l seen).Sublist l := by
  intro l
  induction l with
  | nil => intro seen; simp [dedupAux]
  | cons g rest ih =>
      intro seen
      unfold dedupAux
      split
      · exact (ih seen).cons g
      · exact (ih (normDesc g :: seen)).cons₂ g

theorem dedupAux_subset {l : List Gap} {seen : List (List Char)} {g : Gap}
    (h : g ∈ dedupAux l seen) : g ∈ l := (dedupAux_sublist l seen).mem h

theorem dedupAux_not_seen : ∀ (l : List Gap) (seen : List (List Char)),
    ∀ g ∈ dedupAux l seen, ¬ normDesc g ∈ seen := by
  intro l
  induction l with
  | nil => intro seen g hg; simp [dedupAux] at hg
  | cons a rest ih =>
      intro seen g hg
      unfold dedupAux at hg
      split at hg
      · exact ih seen g hg
      · rcases List.mem_cons.mp hg with hga | hgr
        · rename_i hns; exact hga ▸ hns
        · intro hmem
          exact ih (normDesc a :: seen) g hgr (List.mem_cons_of_mem _ hmem)

theorem dedupAux_pairwise : ∀ (l : List Gap) (seen : List (List Char)),
    (dedupAux l seen).Pairwise (fun x y => normDesc x ≠ normDesc y) := by
  intro l
  induction l with
  | nil => intro seen; simp [dedupAux]
  | cons a rest ih =>
      intro seen
      unfold dedupAux
      split
      · exact ih seen
      · rw [List.pairwise_cons]
        refine ⟨fun y hy => ?_, ih (normDesc a :: seen)⟩
        intro hEq
        exact dedupAux_not_seen rest (normDesc a :: seen) y hy (hEq ▸ List.mem_cons_self _ _)

theorem dedupAux_mem_first : ∀ (l₁ : List Gap) (g : Gap) (l₂ : List Gap) (seen : List (List Char)),
    ¬ normDesc g ∈ seen → (∀ h ∈ l₁, normDesc h ≠ normDesc g) →
    g ∈ dedupAux (l₁ ++ g :: l₂) seen := by
  intro l₁
  induction l₁ with
  | nil =>
      intro g l₂ seen hseen _
      simp only [List.nil_append]
      unfold dedupAux
      rw [if_neg hseen]
      exact List.mem_cons_self _ _
  | cons a t ih =>
      intro g l₂ seen hseen hfirst
      simp only [List.cons_append]
      unfold dedupAux
      split
      · exact ih g l₂ seen hseen (fun h hm => hfirst h (List.mem_cons_of_mem a hm))
      · refine List.mem_cons_of_mem a (ih g l₂ (normDesc a :: seen) ?_
          (fun h hm => hfirst h (List.mem_cons_of_mem a hm)))
        intro hmem
        rcases List.mem_cons.mp hmem with hEq | hIn
        · exact hfirst a (List.mem_cons_self a t) hEq.symm
        · exact hseen hIn

theorem dedupAux_represents : ∀ (l : List Gap) (seen : List (List Char)) (g : Gap),
    g ∈ l → ¬ normDesc g ∈ seen →
    ∃ g2 ∈ dedupAux l seen, normDesc g2 = normDesc g := by
  intro l
  induction l with
  | nil => intro seen g hg; simp at hg
  | cons a rest ih =>
      intro seen g hg hseen
      unfold dedupAux
      split
      · rename_i hns
        rcases List.mem_cons.mp hg with hga | hgr
        · exact absurd (hga ▸ hns) hseen
        · exact ih seen g hgr hseen
      · rcases List.mem_cons.mp hg with hga | hgr
        · exact ⟨a, List.mem_cons_self _ _, by rw [hga]⟩
        · by_cases hEq : normDesc g = normDesc a
          · exact ⟨a, List.mem_cons_self _ _, hEq.symm⟩
          · obtain ⟨g2, hg2, hg2n⟩ := ih (normDesc a :: seen) g hgr
              (by
                intro hmem
                rcases List.mem_cons.mp hmem with h1 | h2
                · exact hEq h1
                · exact hseen h2)
            exact ⟨g2, List.mem_cons_of_mem a hg2, hg2n⟩

/-- Each gap weight is non-negative. -/
theorem gapWeight_nonneg (g : Gap) : 0 ≤ gapWeight g := by
  cases hc : g.criticality <;> cases he : g.certainty <;>
    simp [gapWeight, critWeight, certWeight, hc, he] <;> norm_num

/-- The summed gap weight is non-negative. -/
theorem totalWeight_nonneg (gaps : List Gap) : 0 ≤ (gaps.map gapWeight).sum :=
  List.sum_nonneg (by
    intro x hx
    obtain ⟨g, _, rfl⟩ := List.mem_map.mp hx
    exact gapWeight_nonneg g)

/-! Claim C2. -/

/-- The contrastive analysis of a state against itself finds nothing. -/
theorem contrastive_self (a : StateMap) (ctx : Context) :
    contrastiveAnalysis a a ctx = [] := by
  have h1 : extraKeys a a = [] := by
    simp [extraKeys, List.filter_eq_nil_iff]
  have h2 : (sharedKeys a a).filter
      (fun k => keyTypeName a k ≠ keyTypeName a k) = [] := by
    simp [List.filter_eq_nil_iff]
  simp [contrastiveAnalysis, h1, h2]

/-- C2: for identical current and goal mappings, map_void produces a
void map with no gaps and void density exactly 0. -/
theorem identical_states_empty_void
    (betw : List String → List (String × String × String) → List (String × Rat))
    (a b : StateMap) (ctx : Context) (h : a = b) :
    (mapVoid betw a b ctx).gaps = [] ∧ (mapVoid betw a b ctx).void_density = 0 := by
  subst h
  simp [mapVoid, preVoidMap, assessedGaps, allDiscoveredGaps, contrastive_self,
    dependencyWalk, constraintPropagation, counterfactualExploration, boundaryProbing,
    dedupGaps, dedupAux, sortDescBy, buildGapNetwork, calculateVoidDensity]

/-- Witness for C2 at a concrete mapping. -/
theorem identical_states_empty_void_witness :
    ([(("x" : String), Value.str "y")] : StateMap) = [(("x" : String), Value.str "y")] ∧
      (mapVoid (fun _ _ => []) [(("x" : String), Value.str "y")]
          [(("x" : String), Value.str "y")] Option.none).gaps = [] ∧
      (mapVoid (fun _ _ => []) [(("x" : String), Value.str "y")]
          [(("x" : String), Value.str "y")] Option.none).void_density = 0 :=
  ⟨rfl, identical_states_empty_void (fun _ _ => []) _ _ Option.none rfl⟩

/-! Claim C3 (corrected: the fallback branch is not clamped). -/

/-- Unfolding equation for calculate_void_density. -/
theorem calculateVoidDensity_eq (vm : VoidMap) :
    calculateVoidDensity vm =
      if vm.gaps.isEmpty then 0
      else if (estimatePossibleGaps vm).length > 0 then
        min 1 ((vm.gaps.map gapWeight).sum / ((estimatePossibleGaps vm).length : Rat))
      else (vm.gaps.map gapWeight).sum / 10 := rfl

/-- C3 (amended): the void density is within [0,1] whenever the
estimated possible gap count is positive; when the estimate is 0 the
fallback is exactly total_weight / 10, which is non-negative but
unclamped, so it stays within [0,1] only when the total weight is at
most 10. -/
theorem void_density_bounds (vm : VoidMap) :
    (0 < (estimatePossibleGaps vm).length →
      0 ≤ calculateVoidDensity vm ∧ calculateVoidDensity vm ≤ 1) ∧
    ((estimatePossibleGaps vm).length = 0 → vm.gaps.isEmpty = false →
      calculateVoidDensity vm = (vm.gaps.map gapWeight).sum / 10) ∧
    ((vm.gaps.map gapWeight).sum ≤ 10 →
      0 ≤ calculateVoidDensity vm ∧ calculateVoidDensity vm ≤ 1) := by
  have hw := totalWeight_nonneg vm.gaps
  rw [calculateVoidDensity_eq]
  refine ⟨fun hpos => ?_, fun hzero hne => ?_, fun hle => ?_⟩
  · split
    · exact ⟨le_refl 0, by norm_num⟩
    · exact ⟨le_min (by norm_num) (div_nonneg hw (by positivity)), min_le_left _ _⟩
  · rw [hne]
    simp only [Bool.false_eq_true, if_false]
    rw [hzero]
    simp
  · split
    · exact ⟨le_refl 0, by norm_num⟩
    · split
      · exact ⟨le_min (by norm_num) (div_nonneg hw (by positivity)), min_le_left _ _⟩
      · exact ⟨by positivity, by rw [div_le_one (by norm_num)]; exact hle⟩

/-- A BLOCKING, DEFINITE gap of weight 1. -/
def unitGap : Gap :=
  { id := "g", description := "d", void_type := .DEPENDENCY_GAP,
    domains := [], evidence := [], manifestations := [],
    criticality := .BLOCKING, certainty := .DEFINITE }

/-- A one-gap void map whose possible-gap estimate is positive. -/
def wDensityMap : VoidMap :=
  { id := "w", point_a := [], point_b := [("k", Value.int 1)], gaps := [unitGap] }

/-- Witness for C3 at a concrete void map with a positive estimate. -/
theorem void_density_bounds_witness :
    0 < (estimatePossibleGaps wDensityMap).length ∧
      0 ≤ calculateVoidDensity wDensityMap ∧ calculateVoidDensity wDensityMap ≤ 1 :=
  ⟨by decide, (void_density_bounds wDensityMap).1 (by decide)⟩

/-- A void map with identical (empty) endpoints and eleven unit-weight
gaps: the possible-gap estimate is 0, so the fallback divides by 10. -/
def overfullMap : VoidMap :=
  { id := "cex", point_a := [], point_b := [], gaps := List.replicate 11 unitGap }

/-- C3 counterexample: on a void map with eleven unit-weight gaps and
an estimate of 0, the fallback result 11/10 leaves [0,1]. -/
theorem void_density_above_one :
    calculateVoidDensity overfullMap = 11/10 ∧
      ¬ calculateVoidDensity overfullMap ≤ 1 := by
  have h : calculateVoidDensity overfullMap
      = (List.map gapWeight (List.replicate 11 unitGap)).sum / 10 := rfl
  have h2 : calculateVoidDensity overfullMap = 11/10 := by
    rw [h]
    simp [gapWeight, unitGap, critWeight, certWeight, List.sum_replicate]
    norm_num
  exact ⟨h2, by rw [h2]; norm_num⟩

/-! Claim C9: unknown strategy and clustering method names fall back to
the defaults and still return a normal result. -/

/-- C9: an unregistered navigation strategy name is substituted by
gap_hopping and an unregistered clustering method name by semantic;
both dispatches return the same plain result as the default (the model
is total, so no exception is possible). -/
theorem unknown_names_fall_back
    (betw : List String → List (String × String × String) → List (String × Rat))
    (detect : List String → List (String × String × String) → List (List String))
    (nClusters : Nat) (vm vm2 : VoidMap) (s m : String)
    (hs : ¬ s ∈ ["gap_hopping", "boundary_skirting", "void_bridging",
      "constraint_circumvention"])
    (hm : ¬ m ∈ ["semantic", "structural", "strategic"]) :
    navigateVoid betw vm s = navigateVoid betw vm "gap_hopping" ∧
      clusterGaps detect nClusters vm2 m = clusterGaps detect nClusters vm2 "semantic" := by
  constructor
  · simp [navigateVoid, hs]
  · simp [clusterGaps, pickMethod, hm]

/-- Witness for C9 at a concrete unknown name. -/
theorem unknown_names_fall_back_witness :
    (¬ ("quantum" : String) ∈ ["gap_hopping", "boundary_skirting", "void_bridging",
        "constraint_circumvention"]) ∧
      (¬ ("quantum" : String) ∈ ["semantic", "structural", "strategic"]) ∧
      (navigateVoid (fun _ _ => []) { id := "w9", point_a := [], point_b := [] } "quantum" =
        navigateVoid (fun _ _ => []) { id := "w9", point_a := [], point_b := [] } "gap_hopping" ∧
      clusterGaps (fun _ _ => []) 5 { id := "w9", point_a := [], point_b := [] } "quantum" =
        clusterGaps (fun _ _ => []) 5 { id := "w9", point_a := [], point_b := [] } "semantic") :=
  ⟨by decide, by decide,
    unknown_names_fall_back (fun _ _ => []) (fun _ _ => []) 5
      { id := "w9", point_a := [], point_b := [] }
      { id := "w9", point_a := [], point_b := [] } "quantum" "quantum"
      (by decide) (by decide)⟩

/-! Claim C6: deduplication keeps exactly the first occurrence of every
case-insensitive, whitespace-trimmed description class. -/

/-- C6: deduplication (a) keeps a representative of every normalised
description class of the input, (b) keeps pairwise distinct normalised
descriptions, and (c) keeps the first occurrence itself: any gap that no
earlier gap matches survives verbatim. -/
theorem dedup_first_occurrence_wins (l : List Gap) :
    (∀ g ∈ l, ∃ g2 ∈ dedupGaps l, normDesc g2 = normDesc g) ∧
      (dedupGaps l).Pairwise (fun x y => normDesc x ≠ normDesc y) ∧
      (∀ (l₁ l₂ : List Gap) (g : Gap), l = l₁ ++ g :: l₂ →
        (∀ h ∈ l₁, normDesc h ≠ normDesc g) → g ∈ dedupGaps l) := by
  refine ⟨fun g hg => dedupAux_represents l [] g hg (by simp),
    dedupAux_pairwise l [],
    fun l₁ l₂ g hsplit hfirst => ?_⟩
  rw [hsplit]
  exact dedupAux_mem_first l₁ g l₂ [] (by simp) hfirst

/-- Two gaps that differ only in description case. -/
def dupGapA : Gap :=
  { id := "d1", description := "Missing Auth", void_type := .DEPENDENCY_GAP,
    domains := [], evidence := [], manifestations := [],
    criticality := .HIGH, certainty := .DEFINITE }

/-- Case-insensitive duplicate of dupGapA with a different id. -/
def dupGapB : Gap :=
  { id := "d2", description := "missing auth", void_type := .INFORMATION_GAP,
    domains := [], evidence := [], manifestations := [],
    criticality := .LOW, certainty := .SPECULATIVE }

/-- Witness for C6: two case-insensitively identical descriptions
collapse to the first occurrence. -/
theorem dedup_first_occurrence_wins_witness :
    (dupGapA ∈ ([dupGapA, dupGapB] : List Gap) →
        ∃ g2 ∈ dedupGaps [dupGapA, dupGapB], normDesc g2 = normDesc dupGapA) ∧
      dupGapA ∈ dedupGaps [dupGapA, dupGapB] ∧
      dedupGaps [dupGapA, dupGapB] = [dupGapA] :=
  ⟨fun h => (dedup_first_occurrence_wins [dupGapA, dupGapB]).1 dupGapA h,
    (dedup_first_occurrence_wins [dupGapA, dupGapB]).2.2 [] [dupGapB] dupGapA rfl
      (by intro h hmem; simp at hmem),
    by rfl⟩

/-! Claim C8 (corrected: the (causal, information) pair gets an edge,
but its label is "related"; the label "informs_causality" is only
produced with information first and causal second). -/

/-- C8 (amended): for any gap pair with the first a CAUSAL_GAP and the
second an INFORMATION_GAP (sharing no domains, hence of different
types), the relationship graph contains an edge between them, and its
label is "related". -/
theorem causal_information_edge_label (l₁ l₂ l₃ : List Gap) (g1 g2 : Gap)
    (h1 : g1.void_type = .CAUSAL_GAP) (h2 : g2.void_type = .INFORMATION_GAP)
    (_hdom : ∀ d ∈ g1.domains, ¬ d ∈ g2.domains) :
    (g1.id, g2.id, "related") ∈ buildEdges (l₁ ++ g1 :: (l₂ ++ g2 :: l₃)) := by
  induction l₁ with
  | cons a t ih =>
      rw [List.cons_append]
      unfold buildEdges
      exact List.mem_append_right _ ih
  | nil =>
      rw [List.nil_append]
      unfold buildEdges
      refine List.mem_append_left _ (List.mem_map.mpr ⟨g2, ?_, ?_⟩)
      · refine List.mem_filter.mpr ⟨List.mem_append_right _ (List.mem_cons_self _ _), ?_⟩
        simp [areGapsRelated, h1, h2]
      · simp [determineRelationship, h1, h2]

/-- A concrete causal gap (domain tag "y"). -/
def gCausal : Gap :=
  { id := "c1", description := "causal gap", void_type := .CAUSAL_GAP,
    domains := ["y"], evidence := [], manifestations := [],
    criticality := .LOW, certainty := .DEFINITE }

/-- A concrete information gap (domain tag "x", disjoint from gCausal). -/
def gInfo : Gap :=
  { id := "i1", description := "info gap", void_type := .INFORMATION_GAP,
    domains := ["x"], evidence := [], manifestations := [],
    criticality := .LOW, certainty := .DEFINITE }

/-- Witness for C8 (amended) at two concrete gaps. -/
theorem causal_information_edge_label_witness :
    gCausal.void_type = VoidType.CAUSAL_GAP ∧
      ("c1", "i1", "related") ∈ buildEdges [gCausal, gInfo] :=
  ⟨rfl, causal_information_edge_label [] [] [] gCausal gInfo rfl rfl
    (by intro d hd; simp [gCausal] at hd; simp [hd, gInfo])⟩

/-- C8 counterexample: at a concrete (causal, information) pair with
disjoint domains, the graph holds exactly one edge between them and its
label is "related", not "informs_causality" as claimed. -/
theorem causal_information_edge_not_informs :
    buildEdges [gCausal, gInfo] = [("c1", "i1", "related")] ∧
      ("related" : String) ≠ "informs_causality" := by
  constructor
  · rfl
  · decide

/-! Claim C7 (corrected: strategic importance uses the raw enum value
of the criticality, not the canonical weight table). -/

/-- Unfolding equation for cluster_gaps (the let bindings zeta-reduce). -/
theorem clusterGaps_eq
    (detect : List String → List (String × String × String) → List (List String))
    (nClusters : Nat) (vm : VoidMap) (method : String) :
    clusterGaps detect nClusters vm method =
      if vm.gaps.isEmpty then []
      else
        ((if pickMethod method = "semantic" then semanticClustering nClusters vm
          else if pickMethod method = "structural" then structuralClustering detect nClusters vm
          else strategicClustering nClusters vm).map calcStrategicImportance) := rfl

/-- Every cluster built by _create_cluster records density as member
count over 10. -/
theorem createCluster_density (gs : List Gap) (t : String) :
    (createCluster gs t).density = ((gs.length : Rat)) / 10 := rfl

/-- Every cluster built by _create_cluster keeps exactly its member
list. -/
theorem createCluster_gaps (gs : List Gap) (t : String) :
    (createCluster gs t).gaps = gs := rfl

/-- Every semantic cluster is a _create_cluster image. -/
theorem semantic_mem_createCluster {nClusters : Nat} {vm : VoidMap} {c : GapCluster}
    (hc : c ∈ semanticClustering nClusters vm) :
    ∃ gs t, c = createCluster gs t := by
  unfold semanticClustering at hc
  split at hc
  · simp at hc
  · have hmem := mem_sortDescBy.mp (List.take_subset _ _ hc)
    obtain ⟨gs, _, rfl⟩ := List.mem_map.mp hmem
    exact ⟨gs, "semantic", rfl⟩

/-- Every structural cluster is a _create_cluster image. -/
theorem structural_mem_createCluster
    {detect : List String → List (String × String × String) → List (List String)}
    {nClusters : Nat} {vm : VoidMap} {c : GapCluster}
    (hc : c ∈ structuralClustering detect nClusters vm) :
    ∃ gs t, c = createCluster gs t := by
  unfold structuralClustering at hc
  split at hc
  · simp at hc
  · obtain ⟨comm, _, hcomm⟩ := List.mem_filterMap.mp hc
    simp only [structuralCluster] at hcomm
    split at hcomm
    · exact absurd hcomm (by simp)
    · exact ⟨_, "structural", (Option.some_injective _ hcomm).symm⟩

/-- Every strategic cluster is a _create_cluster image. -/
theorem strategic_mem_createCluster {nClusters : Nat} {vm : VoidMap} {c : GapCluster}
    (hc : c ∈ strategicClustering nClusters vm) :
    ∃ gs t, c = createCluster gs t := by
  unfold strategicClustering at hc
  have hmem := mem_sortDescBy.mp (List.take_subset _ _ hc)
  obtain ⟨p, _, rfl⟩ := List.mem_map.mp hmem
  exact ⟨p.2, "strategic", rfl⟩

/-- calculate_strategic_importance leaves the member list unchanged. -/
theorem calcStrategicImportance_gaps (c : GapCluster) :
    (calcStrategicImportance c).gaps = c.gaps := by
  unfold calcStrategicImportance
  split <;> rfl

/-- calculate_strategic_importance on a non-empty cluster sets the
importance to the maximal member enum value times the density. -/
theorem calcStrategicImportance_si (c : GapCluster) (h : c.gaps ≠ []) :
    (calcStrategicImportance c).strategic_importance = maxCritVal c.gaps * c.density := by
  unfold calcStrategicImportance
  rw [if_neg (by simpa [List.isEmpty_iff] using h)]

/-- C7 (amended): every non-empty cluster returned by cluster_gaps has
strategic importance equal to the maximum raw criticality enum value of
its members (BLOCKING=1, HIGH=2, MEDIUM=3, LOW=4, UNKNOWN=5) times its
density, which is member count over 10. -/
theorem cluster_importance_formula
    (detect : List String → List (String × String × String) → List (List String))
    (nClusters : Nat) (vm : VoidMap) (method : String) (c : GapCluster)
    (hc : c ∈ clusterGaps detect nClusters vm method) (hne : c.gaps ≠ []) :
    c.strategic_importance = maxCritVal c.gaps * ((c.gaps.length : Rat) / 10) := by
  rw [clusterGaps_eq] at hc
  split at hc
  · simp at hc
  · obtain ⟨c0, hc0, rfl⟩ := List.mem_map.mp hc
    have hcreate : ∃ gs t, c0 = createCluster gs t := by
      split at hc0
      · exact semantic_mem_createCluster hc0
      · split at hc0
        · exact structural_mem_createCluster hc0
        · exact strategic_mem_createCluster hc0
    obtain ⟨gs, t, rfl⟩ := hcreate
    have hgaps : (calcStrategicImportance (createCluster gs t)).gaps = gs := by
      rw [calcStrategicImportance_gaps, createCluster_gaps]
    have hne2 : (createCluster gs t).gaps ≠ [] := by
      rw [createCluster_gaps]
      intro h0
      exact hne (by rw [hgaps, h0])
    rw [hgaps, calcStrategicImportance_si _ hne2, createCluster_density, createCluster_gaps]

/-- A concrete HIGH dependency gap. -/
def gHighA : Gap :=
  { id := "a", description := "gap a", void_type := .DEPENDENCY_GAP,
    domains := ["general"], evidence := [], manifestations := [],
    criticality := .HIGH, certainty := .DEFINITE }

/-- A one-gap void map with a HIGH criticality gap. -/
def highGapMap : VoidMap :=
  { id := "h", point_a := [], point_b := [], gaps := [gHighA] }

/-- Always-empty community detection stand-in. -/
def detectZero : List String → List (String × String × String) → List (List String) :=
  fun _ _ => []

/-- Zero betweenness centrality stand-in. -/
def betwZero : List String → List (String × String × String) → List (String × Rat) :=
  fun _ _ => []

/-- Witness for C7 (amended) at a concrete strategic clustering run. -/
theorem cluster_importance_formula_witness :
    ((clusterGaps detectZero 5 highGapMap "strategic").headD
        (createCluster [] "strategic") ∈ clusterGaps detectZero 5 highGapMap "strategic") ∧
      ((clusterGaps detectZero 5 highGapMap "strategic").headD
          (createCluster [] "strategic")).strategic_importance
        = maxCritVal ((clusterGaps detectZero 5 highGapMap "strategic").headD
            (createCluster [] "strategic")).gaps
          * ((((clusterGaps detectZero 5 highGapMap "strategic").headD
              (createCluster [] "strategic")).gaps.length : Rat) / 10) := by
  have h : clusterGaps detectZero 5 highGapMap "strategic"
      = [calcStrategicImportance (createCluster [gHighA] "strategic")] := rfl
  have hmem : (clusterGaps detectZero 5 highGapMap "strategic").headD
      (createCluster [] "strategic") ∈ clusterGaps detectZero 5 highGapMap "strategic" := by
    rw [h]
    exact List.mem_singleton.mpr rfl
  refine ⟨hmem, cluster_importance_formula detectZero 5 highGapMap "strategic" _ hmem ?_⟩
  rw [h, List.headD_cons, calcStrategicImportance_gaps, createCluster_gaps]
  exact List.cons_ne_nil _ _

/-- C7 counterexample: a single-member HIGH cluster gets importance
2 * (1/10) = 1/5, not the claimed canonical weight 0.7 * 0.1 = 7/100. -/
theorem cluster_importance_not_weight_table :
    (clusterGaps detectZero 5 highGapMap "strategic").map GapCluster.strategic_importance
        = [1/5] ∧
      critWeight .HIGH * ((1 : Rat) / 10) = 7/100 ∧
      (1/5 : Rat) ≠ 7/100 := by
  refine ⟨?_, by norm_num [critWeight], by norm_num⟩
  have h : clusterGaps detectZero 5 highGapMap "strategic"
      = [calcStrategicImportance (createCluster [gHighA] "strategic")] := rfl
  rw [h, List.map_singleton,
    calcStrategicImportance_si _ (by rw [createCluster_gaps]; exact List.cons_ne_nil _ _),
    createCluster_density, createCluster_gaps]
  norm_num [maxCritVal, critValQ, gHighA, GapCriticality.val]

/-! Claim C5 (corrected: the sort key is the raw enum value descending,
which puts UNKNOWN first and BLOCKING last). -/

/-- build_gap_network never changes the gap list. -/
theorem buildGapNetwork_gaps
    (betw : List String → List (String × String × String) → List (String × Rat))
    (vm : VoidMap) : (buildGapNetwork betw vm).gaps = vm.gaps := by
  unfold buildGapNetwork
  split <;> rfl

/-- On a non-empty gap list, build_gap_network sets connectivity to the
networkx graph density of the relationship graph. -/
theorem buildGapNetwork_connectivity
    (betw : List String → List (String × String × String) → List (String × Rat))
    (vm : VoidMap) (h : vm.gaps ≠ []) :
    (buildGapNetwork betw vm).connectivity
      = nxDensity (nodeCount vm.gaps) (buildEdges vm.gaps).length := by
  unfold buildGapNetwork
  rw [if_neg (by simpa [List.isEmpty_iff] using h)]

/-- The five strategy outputs collapse to the contrastive output (the
other four strategies are no-ops). -/
theorem allDiscoveredGaps_eq (a b : StateMap) (ctx : Context) :
    allDiscoveredGaps a b ctx = contrastiveAnalysis a b ctx := by
  simp [allDiscoveredGaps, dependencyWalk, constraintPropagation,
    counterfactualExploration, boundaryProbing]

/-- The all-gaps list of map_void is just the contrastive output (the
other four strategies are no-ops). -/
theorem mapVoid_gaps_eq (betw : List String → List (String × String × String) → List (String × Rat))
    (a b : StateMap) (ctx : Context) :
    (mapVoid betw a b ctx).gaps =
      sortDescBy critValQ ((dedupGaps (contrastiveAnalysis a b ctx)).map
        Gap.calculateNegativeShape) := by
  show (buildGapNetwork betw _).gaps = _
  rw [buildGapNetwork_gaps]
  show assessedGaps a b ctx = _
  unfold assessedGaps
  rw [allDiscoveredGaps_eq]

/-- C5 (amended): after discovery the gap list is sorted by the raw
criticality enum value descending (UNKNOWN=5 first, then LOW, MEDIUM,
HIGH, BLOCKING=1 last). -/
theorem gaps_sorted_by_enum_value_desc
    (betw : List String → List (String × String × String) → List (String × Rat))
    (a b : StateMap) (ctx : Context) :
    ((mapVoid betw a b ctx).gaps).Pairwise (fun g h => critValQ h ≤ critValQ g) := by
  rw [mapVoid_gaps_eq]
  exact sortDescBy_pairwise critValQ _

/-- The criticality order stated by the spec: BLOCKING first, then
HIGH, MEDIUM, LOW, UNKNOWN.  Modelled from the spec words for
comparison with the implementation order; higher rank means earlier. -/
def specCriticalityRank : GapCriticality → Nat
  | .BLOCKING => 4
  | .HIGH => 3
  | .MEDIUM => 2
  | .LOW => 1
  | .UNKNOWN => 0

/-- C5 counterexample: on current {a: 1} and goal {a: "s", b: 2} the
produced gap list is [UNKNOWN, MEDIUM], so a gap of strictly higher
spec rank (MEDIUM) follows one of lower rank (UNKNOWN): the list is not
ordered BLOCKING-first as claimed. -/
theorem gaps_not_blocking_first :
    ((mapVoid betwZero [("a", Value.int 1)] [("a", Value.str "s"), ("b", Value.int 2)]
          Option.none).gaps.map Gap.criticality
        = [.UNKNOWN, .MEDIUM]) ∧
      specCriticalityRank .UNKNOWN < specCriticalityRank .MEDIUM := by
  constructor
  · rfl
  · decide

/-! Claim C1 (corrected: the per-extra-key guarantee on the final
void-map only holds when no two extra keys collide after case-folding,
because deduplication merges case-insensitively equal descriptions). -/

/-- calculate_negative_shape does not change the gap id. -/
theorem calculateNegativeShape_id (g : Gap) : (Gap.calculateNegativeShape g).id = g.id := rfl

/-- calculate_negative_shape does not change the void type. -/
theorem calculateNegativeShape_void_type (g : Gap) :
    (Gap.calculateNegativeShape g).void_type = g.void_type := rfl

/-- calculate_negative_shape does not change the domain tags. -/
theorem calculateNegativeShape_domains (g : Gap) :
    (Gap.calculateNegativeShape g).domains = g.domains := rfl

/-- C1 (amended): the contrastive strategy emits, for every key in goal
but not in current, a DEPENDENCY_GAP with certainty DEFINITE and
criticality UNKNOWN, and for every shared key with differing value
types a DEPENDENCY_GAP with certainty DEFINITE and criticality MEDIUM;
and, provided no two extra keys produce case-insensitively identical
descriptions (keys equal up to case), the final void-map keeps a
DEPENDENCY_GAP with id missing_attr_<key> for every extra key. -/
theorem contrastive_dependency_gaps
    (betw : List String → List (String × String × String) → List (String × Rat))
    (a b : StateMap) (ctx : Context) (k : String)
    (hk : k ∈ b.keys) (hk2 : ¬ k ∈ a.keys)
    (hdistinct : ((extraKeys a b).map (fun k2 => normDesc (mkMissingGap k2 ctx))).Nodup) :
    (mkMissingGap k ctx ∈ contrastiveAnalysis a b ctx ∧
      (mkMissingGap k ctx).void_type = .DEPENDENCY_GAP ∧
      (mkMissingGap k ctx).certainty = .DEFINITE ∧
      (mkMissingGap k ctx).criticality = .UNKNOWN) ∧
    (∀ k2, k2 ∈ sharedKeys a b → keyTypeName a k2 ≠ keyTypeName b k2 →
      mkMismatchGap k2 (keyTypeName a k2) (keyTypeName b k2) ctx
          ∈ contrastiveAnalysis a b ctx ∧
        (mkMismatchGap k2 (keyTypeName a k2) (keyTypeName b k2) ctx).void_type
          = .DEPENDENCY_GAP ∧
        (mkMismatchGap k2 (keyTypeName a k2) (keyTypeName b k2) ctx).certainty
          = .DEFINITE ∧
        (mkMismatchGap k2 (keyTypeName a k2) (keyTypeName b k2) ctx).criticality
          = .MEDIUM) ∧
    (∃ g ∈ (mapVoid betw a b ctx).gaps,
      g.void_type = .DEPENDENCY_GAP ∧ g.id = "missing_attr_" ++ k) := by
  have hkx : k ∈ extraKeys a b := List.mem_filter.mpr ⟨hk, by simpa using hk2⟩
  refine ⟨⟨List.mem_append_left _ (List.mem_map_of_mem _ hkx), rfl, rfl, rfl⟩,
    fun k2 hk2m hne => ⟨List.mem_append_right _ (List.mem_map_of_mem _
      (List.mem_filter.mpr ⟨hk2m, by simpa using hne⟩)), rfl, rfl, rfl⟩, ?_⟩
  obtain ⟨pre, post, hsplit⟩ := List.append_of_mem hkx
  have hsurv : mkMissingGap k ctx ∈ dedupGaps (contrastiveAnalysis a b ctx) := by
    have hshape : contrastiveAnalysis a b ctx
        = (pre.map (fun k2 => mkMissingGap k2 ctx))
          ++ mkMissingGap k ctx ::
            ((post.map (fun k2 => mkMissingGap k2 ctx))
              ++ ((sharedKeys a b).filter
                  (fun k2 => keyTypeName a k2 ≠ keyTypeName b k2)).map
                (fun k2 => mkMismatchGap k2 (keyTypeName a k2) (keyTypeName b k2) ctx)) := by
      unfold contrastiveAnalysis
      rw [hsplit]
      simp [List.append_assoc]
    rw [hshape]
    refine dedupAux_mem_first _ _ _ [] (by simp) ?_
    intro h hmem
    obtain ⟨k2, hk2p, rfl⟩ := List.mem_map.mp hmem
    intro hEq
    have hnd := hdistinct
    rw [hsplit, List.map_append, List.map_cons, List.nodup_middle, List.nodup_cons] at hnd
    exact hnd.1 (List.mem_append_left _ (hEq ▸ List.mem_map_of_mem _ hk2p))
  refine ⟨Gap.calculateNegativeShape (mkMissingGap k ctx), ?_, rfl, rfl⟩
  rw [mapVoid_gaps_eq]
  exact mem_sortDescBy.mpr (List.mem_map_of_mem _ hsurv)

/-- Witness for C1 (amended) at concrete states. -/
theorem contrastive_dependency_gaps_witness :
    (("b" : String) ∈ StateMap.keys [("a", Value.str "s"), ("b", Value.int 2)] ∧
      ¬ ("b" : String) ∈ StateMap.keys [("a", Value.int 1)] ∧
      ((extraKeys [("a", Value.int 1)] [("a", Value.str "s"), ("b", Value.int 2)]).map
        (fun k2 => normDesc (mkMissingGap k2 Option.none))).Nodup) ∧
      (∃ g ∈ (mapVoid betwZero [("a", Value.int 1)]
          [("a", Value.str "s"), ("b", Value.int 2)] Option.none).gaps,
        g.void_type = .DEPENDENCY_GAP ∧ g.id = "missing_attr_" ++ "b") :=
  ⟨⟨by decide, by decide, by decide⟩,
    (contrastive_dependency_gaps betwZero [("a", Value.int 1)]
      [("a", Value.str "s"), ("b", Value.int 2)] Option.none "b"
      (by decide) (by decide) (by decide)).2.2⟩

/-- A goal state with two keys that differ only in case. -/
def caseCollideGoal : StateMap := [("b", Value.int 1), ("B", Value.int 2)]

/-- C1 counterexample: with current = {} and goal = {b: 1, B: 2}, key
"B" is an extra key, yet deduplication by case-folded description
leaves only the gap for "b": no gap with id missing_attr_B reaches the
void-map, so there is no DEPENDENCY_GAP per extra key. -/
theorem per_key_gap_missing :
    ((mapVoid betwZero [] caseCollideGoal Option.none).gaps.map Gap.id
        = ["missing_attr_b"]) ∧
      ("B" : String) ∈ caseCollideGoal.keys ∧
      (¬ ("B" : String) ∈ StateMap.keys []) ∧
      (∀ g ∈ (mapVoid betwZero [] caseCollideGoal Option.none).gaps,
        g.id ≠ "missing_attr_B") := by
  have h : (mapVoid betwZero [] caseCollideGoal Option.none).gaps.map Gap.id
      = ["missing_attr_b"] := rfl
  refine ⟨h, by decide, by decide, fun g hg => ?_⟩
  have hid : g.id ∈ ["missing_attr_b"] := h ▸ List.mem_map_of_mem Gap.id hg
  rw [List.mem_singleton.mp hid]
  decide

/-! Claim C10: every discovered gap carries the "general" domain tag,
so the relationship graph of an engine-produced void map is complete
and its connectivity is 1 whenever it has at least two gaps. -/

/-- Appending to a fixed string on the left is injective. -/
theorem strAppend_left_inj (p : String) : Function.Injective (fun s => p ++ s) := by
  intro x y h
  have h2 : p.data ++ x.data = p.data ++ y.data := by
    have h3 := congrArg String.data h
    simpa [String.data_append] using h3
  have h4 := List.append_cancel_left h2
  cases x
  cases y
  exact congrArg String.mk h4

/-- A missing_attr id never collides with a type_mismatch id. -/
theorem missing_ne_mismatch (k k2 : String) :
    ("missing_attr_" ++ k) ≠ ("type_mismatch_" ++ k2) := by
  intro h
  have h1 : ("missing_attr_" ++ k).data.head? = some 'm' := by
    rw [String.data_append]
    exact rfl
  have h2 : ("type_mismatch_" ++ k2).data.head? = some 't' := by
    rw [String.data_append]
    exact rfl
  rw [h, h2] at h1
  simp at h1

/-- On dict inputs (unique key lists) the contrastive gaps have
pairwise distinct ids. -/
theorem contrastive_ids_nodup (a b : StateMap) (ctx : Context)
    (ha : a.keys.Nodup) (hb : b.keys.Nodup) :
    ((contrastiveAnalysis a b ctx).map Gap.id).Nodup := by
  have hrw : (contrastiveAnalysis a b ctx).map Gap.id
      = (extraKeys a b).map (fun k => "missing_attr_" ++ k)
        ++ ((sharedKeys a b).filter
            (fun k => keyTypeName a k ≠ keyTypeName b k)).map
          (fun k => "type_mismatch_" ++ k) := by
    simp only [contrastiveAnalysis, List.map_append, List.map_map]
    rfl
  rw [hrw]
  refine List.Nodup.append ?_ ?_ ?_
  · exact (hb.filter _).map (strAppend_left_inj "missing_attr_")
  · exact ((ha.filter _).filter _).map (strAppend_left_inj "type_mismatch_")
  · intro x hx1 hx2
    obtain ⟨k, _, rfl⟩ := List.mem_map.mp hx1
    obtain ⟨k2, _, hk2⟩ := List.mem_map.mp hx2
    exact missing_ne_mismatch k k2 hk2.symm

/-- The final gap list of map_void keeps pairwise distinct ids. -/
theorem mapVoid_ids_nodup
    (betw : List String → List (String × String × String) → List (String × Rat))
    (a b : StateMap) (ctx : Context) (ha : a.keys.Nodup) (hb : b.keys.Nodup) :
    (((mapVoid betw a b ctx).gaps).map Gap.id).Nodup := by
  rw [mapVoid_gaps_eq]
  have h1 : ((dedupGaps (contrastiveAnalysis a b ctx)).map Gap.id).Nodup :=
    List.Nodup.sublist ((dedupAux_sublist _ _).map Gap.id)
      (contrastive_ids_nodup a b ctx ha hb)
  have h2 : (((dedupGaps (contrastiveAnalysis a b ctx)).map
      Gap.calculateNegativeShape).map Gap.id).Nodup := by
    have hmm : ((dedupGaps (contrastiveAnalysis a b ctx)).map
        Gap.calculateNegativeShape).map Gap.id
        = (dedupGaps (contrastiveAnalysis a b ctx)).map Gap.id := by
      rw [List.map_map]
      rfl
    rw [hmm]
    exact h1
  exact (((sortDescBy_perm critValQ _).map Gap.id).nodup_iff).mpr h2

/-- Every contrastive gap carries the "general" domain tag. -/
theorem contrastive_general {a b : StateMap} {ctx : Context} {g : Gap}
    (hg : g ∈ contrastiveAnalysis a b ctx) : "general" ∈ g.domains := by
  unfold contrastiveAnalysis at hg
  rcases List.mem_append.mp hg with h | h
  · obtain ⟨k, _, rfl⟩ := List.mem_map.mp h
    show "general" ∈ inferDomains k ctx
    exact List.mem_cons_self _ _
  · obtain ⟨k, _, rfl⟩ := List.mem_map.mp h
    show "general" ∈ inferDomains k ctx
    exact List.mem_cons_self _ _

/-- Two gaps that both carry "general" are related (their domain tag
sets intersect). -/
theorem related_of_general (g h : Gap) (hg : "general" ∈ g.domains)
    (hh : "general" ∈ h.domains) : areGapsRelated g h = true := by
  unfold areGapsRelated
  have hd : g.domains.any (fun d => decide (d ∈ h.domains)) = true :=
    List.any_eq_true.mpr ⟨"general", hg, by simpa using hh⟩
  simp [hd]

/-- When all pairs are related, the edge list of the relationship graph
is a complete graph on the gap list. -/
theorem buildEdges_length_complete : ∀ (gaps : List Gap),
    gaps.Pairwise (fun g h => areGapsRelated g h = true) →
    2 * (buildEdges gaps).length = gaps.length * (gaps.length - 1) := by
  intro gaps
  induction gaps with
  | nil => intro _; rfl
  | cons g rest ih =>
      intro hp
      rw [List.pairwise_cons] at hp
      unfold buildEdges
      rw [List.length_append, List.length_map,
        List.filter_eq_self.mpr (fun h hm => hp.1 h hm)]
      have hrec := ih hp.2
      cases hrl : rest.length with
      | zero =>
          rw [hrl] at hrec
          have hE : (buildEdges rest).length = 0 := by omega
          simp [hrl, hE]
      | succ s =>
          rw [hrl, Nat.succ_sub_one] at hrec
          simp only [List.length_cons, hrl, Nat.succ_sub_one]
          calc 2 * (s + 1 + (buildEdges rest).length)
              = 2 * (s + 1) + 2 * (buildEdges rest).length := by ring
            _ = 2 * (s + 1) + (s + 1) * s := by rw [hrec]
            _ = (s + 1 + 1) * (s + 1) := by ring

/-- The connectivity stored by map_void on a non-empty gap list is the
networkx density of its relationship graph. -/
theorem mapVoid_connectivity_eq
    (betw : List String → List (String × String × String) → List (String × Rat))
    (a b : StateMap) (ctx : Context) (h : (mapVoid betw a b ctx).gaps ≠ []) :
    (mapVoid betw a b ctx).connectivity
      = nxDensity (nodeCount (mapVoid betw a b ctx).gaps)
        (buildEdges (mapVoid betw a b ctx).gaps).length := by
  have hg : (mapVoid betw a b ctx).gaps = assessedGaps a b ctx := by
    show (buildGapNetwork betw _).gaps = _
    rw [buildGapNetwork_gaps]
    exact rfl
  have hC : (mapVoid betw a b ctx).connectivity
      = (buildGapNetwork betw (preVoidMap a b ctx)).connectivity := rfl
  have hpre : (preVoidMap a b ctx).gaps = assessedGaps a b ctx := rfl
  rw [hC, buildGapNetwork_connectivity _ _ (by rw [hpre]; rw [hg] at h; exact h), hpre, hg]

/-- All-pairs relatedness gives a Pairwise instance. -/
theorem pairwise_of_forall_mem {R : Gap → Gap → Prop} : ∀ {l : List Gap},
    (∀ g ∈ l, ∀ h ∈ l, R g h) → l.Pairwise R := by
  intro l
  induction l with
  | nil => intro _; exact List.Pairwise.nil
  | cons g rest ih =>
      intro hall
      refine List.Pairwise.cons (fun y hy => ?_) (ih ?_)
      · exact hall g (List.mem_cons_self _ _) y (List.mem_cons_of_mem _ hy)
      · intro x hx y hy
        exact hall x (List.mem_cons_of_mem _ hx) y (List.mem_cons_of_mem _ hy)

/-- C10: every gap produced by the discovery engine carries "general"
among its domains; hence any two gaps of an engine-produced void map
are related, the relationship graph is complete, and connectivity is
exactly 1 whenever the map holds at least two gaps. -/
theorem general_domain_forces_full_connectivity
    (betw : List String → List (String × String × String) → List (String × Rat))
    (a b : StateMap) (ctx : Context) (ha : a.keys.Nodup) (hb : b.keys.Nodup) :
    (∀ g ∈ (mapVoid betw a b ctx).gaps, "general" ∈ g.domains) ∧
    (∀ g ∈ (mapVoid betw a b ctx).gaps, ∀ h ∈ (mapVoid betw a b ctx).gaps,
      areGapsRelated g h = true) ∧
    (2 * (buildEdges (mapVoid betw a b ctx).gaps).length
      = (mapVoid betw a b ctx).gaps.length * ((mapVoid betw a b ctx).gaps.length - 1)) ∧
    (2 ≤ (mapVoid betw a b ctx).gaps.length → (mapVoid betw a b ctx).connectivity = 1) := by
  have hgen : ∀ g ∈ (mapVoid betw a b ctx).gaps, "general" ∈ g.domains := by
    intro g hg
    rw [mapVoid_gaps_eq] at hg
    obtain ⟨g0, hg0, rfl⟩ := List.mem_map.mp (mem_sortDescBy.mp hg)
    rw [calculateNegativeShape_domains]
    exact contrastive_general (dedupAux_subset hg0)
  have hrel : ∀ g ∈ (mapVoid betw a b ctx).gaps, ∀ h ∈ (mapVoid betw a b ctx).gaps,
      areGapsRelated g h = true :=
    fun g hg h hh => related_of_general g h (hgen g hg) (hgen h hh)
  have hlen := buildEdges_length_complete _ (pairwise_of_forall_mem hrel)
  refine ⟨hgen, hrel, hlen, fun h2 => ?_⟩
  have hne : (mapVoid betw a b ctx).gaps ≠ [] := by
    intro h0
    rw [h0] at h2
    simp at h2
  rw [mapVoid_connectivity_eq betw a b ctx hne]
  have hn : nodeCount (mapVoid betw a b ctx).gaps = (mapVoid betw a b ctx).gaps.length := by
    unfold nodeCount
    rw [List.dedup_eq_self.mpr (mapVoid_ids_nodup betw a b ctx ha hb), List.length_map]
  rw [hn]
  unfold nxDensity
  rw [if_neg (by omega)]
  set n := (mapVoid betw a b ctx).gaps.length with hdefn
  set m := (buildEdges (mapVoid betw a b ctx).gaps).length with hdefm
  have hnq : (2 : Rat) ≤ (n : Rat) := by exact_mod_cast h2
  have hq : 2 * (m : Rat) = (n : Rat) * ((n : Rat) - 1) := by
    have := congrArg (fun x : Nat => (x : Rat)) hlen
    push_cast [Nat.cast_sub (by omega : 1 ≤ n)] at this
    linarith [this]
  rw [div_eq_one_iff_eq (by
    have hne1 : (n : Rat) ≠ 0 := by linarith
    have hne2 : (n : Rat) - 1 ≠ 0 := by
      intro h0
      have : (n : Rat) = 1 := by linarith
      linarith
    exact mul_ne_zero hne1 hne2)]
  exact hq

/-- Witness for C10 at concrete states producing two gaps. -/
theorem general_domain_forces_full_connectivity_witness :
    (StateMap.keys []).Nodup ∧
      (StateMap.keys [("x", Value.int 1), ("y", Value.int 2)]).Nodup ∧
      ((∀ g ∈ (mapVoid betwZero [] [("x", Value.int 1), ("y", Value.int 2)]
          Option.none).gaps, "general" ∈ g.domains) ∧
        (2 ≤ (mapVoid betwZero [] [("x", Value.int 1), ("y", Value.int 2)]
            Option.none).gaps.length →
          (mapVoid betwZero [] [("x", Value.int 1), ("y", Value.int 2)]
            Option.none).connectivity = 1)) := by
  have h := general_domain_forces_full_connectivity betwZero []
    [("x", Value.int 1), ("y", Value.int 2)] Option.none (by decide) (by decide)
  exact ⟨by decide, by decide, h.1, h.2.2.2⟩

/-! Claim C4: the gap_hopping path respects dependencies. -/

/-- The dependency-order property of a path (given as its gap id list):
whenever a gap of the map appears at position j, every one of its
dependencies that is itself a gap id of the map appears at an earlier
position. -/
def depsRespected (gaps : List Gap) (ids : List String) : Prop :=
  ∀ (j : Nat) (g : Gap), g ∈ gaps → ids[j]? = some g.id →
    ∀ dep ∈ g.dependencies, dep ∈ gaps.map Gap.id →
      ∃ i : Nat, i < j ∧ ids[i]? = some dep

/-- Membership in the first-occurrence deduplication. -/
theorem mem_firstDedupAux [DecidableEq α] :
    ∀ (l : List α) (seen : List α) (a : α),
    a ∈ firstDedupAux seen l ↔ a ∈ l ∧ ¬ a ∈ seen := by
  intro l
  induction l with
  | nil => intro seen a; simp [firstDedupAux]
  | cons b rest ih =>
      intro seen a
      unfold firstDedupAux
      split
      · rename_i hb
        rw [ih seen a]
        constructor
        · exact fun ⟨h1, h2⟩ => ⟨List.mem_cons_of_mem _ h1, h2⟩
        · rintro ⟨h1, h2⟩
          rcases List.mem_cons.mp h1 with rfl | h1b
          · exact absurd hb h2
          · exact ⟨h1b, h2⟩
      · rename_i hb
        rw [List.mem_cons, ih (b :: seen) a]
        constructor
        · rintro (rfl | ⟨h1, h2⟩)
          · exact ⟨List.mem_cons_self _ _, hb⟩
          · exact ⟨List.mem_cons_of_mem _ h1,
              fun hs => h2 (List.mem_cons_of_mem _ hs)⟩
        · rintro ⟨h1, h2⟩
          rcases List.mem_cons.mp h1 with rfl | h1b
          · exact Or.inl rfl
          · by_cases hab : a = b
            · exact Or.inl hab
            · exact Or.inr ⟨h1b, fun hs => by
                rcases List.mem_cons.mp hs with h | h
                · exact hab h
                · exact h2 h⟩

/-- Membership in firstDedup coincides with list membership. -/
theorem mem_firstDedup [DecidableEq α] {l : List α} {a : α} :
    a ∈ firstDedup l ↔ a ∈ l := by
  unfold firstDedup
  rw [mem_firstDedupAux]
  simp

/-- Every known dependency of a gap yields an edge of the gap_hopping
dependency graph. -/
theorem mem_hopEdges {gaps : List Gap} {g : Gap} {dep : String}
    (hg : g ∈ gaps) (hdep : dep ∈ g.dependencies) (hknown : dep ∈ gaps.map Gap.id) :
    (dep, g.id) ∈ hopEdges gaps := by
  unfold hopEdges
  rw [mem_firstDedup]
  refine List.mem_flatMap.mpr ⟨g, hg, ?_⟩
  exact List.mem_map.mpr ⟨dep, List.mem_filter.mpr ⟨hdep, by simpa using hknown⟩, rfl⟩

/-- The node attribute lookup returns a gap of the map carrying the
requested id. -/
theorem nodeGap_spec {gaps : List Gap} {y : String} {g : Gap}
    (h : nodeGap gaps y = some g) : g ∈ gaps ∧ g.id = y := by
  unfold nodeGap at h
  have hmem : g ∈ gaps.filter (fun g2 => decide (g2.id = y)) := by
    obtain ⟨hne, heq⟩ := List.mem_getLast?_eq_getLast
      (show g ∈ (gaps.filter (fun g2 => decide (g2.id = y))).getLast? from by rw [h]; rfl)
    rw [heq]
    exact List.getLast_mem hne
  obtain ⟨h1, h2⟩ := List.mem_filter.mp hmem
  exact ⟨h1, by simpa using h2⟩

/-- The loop invariant of _gap_hopping: if the filled set mirrors the
path ids, every ready gap is a map gap with all known dependencies
filled, and the path so far respects dependencies, then the final path
does too. -/
theorem hopLoop_good (gaps : List Gap) (hids : (gaps.map Gap.id).Nodup) :
    ∀ (fuel : Nat) (ready : List Gap) (filled : List String) (path : List PathStep),
    (∀ x, x ∈ filled ↔ x ∈ path.map PathStep.gapId) →
    (∀ g ∈ ready, g ∈ gaps ∧
      ∀ dep ∈ g.dependencies, dep ∈ gaps.map Gap.id → dep ∈ filled) →
    depsRespected gaps (path.map PathStep.gapId) →
    depsRespected gaps
      ((hopLoop gaps (hopEdges gaps) fuel ready filled path).map PathStep.gapId) := by
  intro fuel
  induction fuel with
  | zero => intro ready filled path _ _ h3; exact h3
  | succ fuel ih =>
      intro ready filled path h1 h2 h3
      cases ready with
      | nil => exact h3
      | cons g rest =>
          by_cases hf : g.id ∈ filled
          · have hstep : hopLoop gaps (hopEdges gaps) (fuel + 1) (g :: rest) filled path
                = hopLoop gaps (hopEdges gaps) fuel rest filled path := by
              simp only [hopLoop]
              rw [if_pos hf]
            rw [hstep]
            exact ih rest filled path h1 (fun x hx => h2 x (List.mem_cons_of_mem _ hx)) h3
          · have hstep : hopLoop gaps (hopEdges gaps) (fuel + 1) (g :: rest) filled path
                = hopLoop gaps (hopEdges gaps) fuel
                    (sortDescBy gapWeight (rest ++ (succsOf (hopEdges gaps) g.id).filterMap
                      (fun y => if (predsOf (hopEdges gaps) y).all
                          (fun p => p ∈ g.id :: filled) then nodeGap gaps y else Option.none)))
                    (g.id :: filled) (path ++ [mkHopStep g]) := by
              simp only [hopLoop]
              rw [if_neg hf]
            rw [hstep]
            have hmapstep : List.map PathStep.gapId [mkHopStep g] = [g.id] := rfl
            apply ih
            · intro x
              rw [List.map_append, hmapstep]
              constructor
              · intro hx
                rcases List.mem_cons.mp hx with rfl | hx2
                · exact List.mem_append_right _ (List.mem_singleton.mpr rfl)
                · exact List.mem_append_left _ ((h1 x).mp hx2)
              · intro hx
                rcases List.mem_append.mp hx with hx2 | hx2
                · exact List.mem_cons_of_mem _ ((h1 x).mpr hx2)
                · exact (List.mem_singleton.mp hx2) ▸ List.mem_cons_self _ _
            · intro x hx
              rcases List.mem_append.mp (mem_sortDescBy.mp hx) with hr | hp
              · obtain ⟨hxg, hdeps⟩ := h2 x (List.mem_cons_of_mem _ hr)
                exact ⟨hxg, fun dep hd hk => List.mem_cons_of_mem _ (hdeps dep hd hk)⟩
              · obtain ⟨y, _, hnode⟩ := List.mem_filterMap.mp hp
                split at hnode
                · rename_i hall
                  obtain ⟨hxg, hxid⟩ := nodeGap_spec hnode
                  refine ⟨hxg, fun dep hd hk => ?_⟩
                  have hedge : (dep, x.id) ∈ hopEdges gaps := mem_hopEdges hxg hd hk
                  rw [hxid] at hedge
                  have hpred : dep ∈ predsOf (hopEdges gaps) y := by
                    unfold predsOf
                    exact List.mem_map.mpr ⟨(dep, y),
                      List.mem_filter.mpr ⟨hedge, by simp⟩, rfl⟩
                  have := List.all_eq_true.mp hall dep hpred
                  simpa using this
                · exact absurd hnode (by simp)
            · rw [List.map_append, hmapstep]
              unfold depsRespected
              intro j g2 hg2 hj dep hd hk
              have hplen : (List.map PathStep.gapId path).length = path.length := by simp
              rcases lt_trichotomy j (path.map PathStep.gapId).length with hlt | heq | hgt
              · rw [List.getElem?_append_left hlt] at hj
                obtain ⟨i, hi, hgi⟩ := h3 j g2 hg2 hj dep hd hk
                have hiP : i < (path.map PathStep.gapId).length :=
                  (List.getElem?_eq_some_iff.mp hgi).1
                exact ⟨i, hi, by rw [List.getElem?_append_left hiP]; exact hgi⟩
              · rw [List.getElem?_append_right (le_of_eq heq.symm), heq, Nat.sub_self] at hj
                have hjid : g.id = g2.id := by simpa using hj
                have hgmem : g ∈ gaps := (h2 g (List.mem_cons_self _ _)).1
                have hg2g : g2 = g :=
                  List.inj_on_of_nodup_map hids hg2 hgmem hjid.symm
                rw [hg2g] at hd
                have hdf : dep ∈ filled :=
                  (h2 g (List.mem_cons_self _ _)).2 dep hd hk
                obtain ⟨i, hgi⟩ := List.mem_iff_getElem?.mp ((h1 dep).mp hdf)
                have hiP : i < (path.map PathStep.gapId).length :=
                  (List.getElem?_eq_some_iff.mp hgi).1
                exact ⟨i, by omega, by rw [List.getElem?_append_left hiP]; exact hgi⟩
              · rw [List.getElem?_append_right (by omega)] at hj
                have hnone : ([g.id] : List String)[j - (path.map PathStep.gapId).length]?
                    = Option.none := by
                  apply List.getElem?_eq_none
                  simp
                  omega
                rw [hnone] at hj
                simp at hj

/-- C4: the path produced by gap_hopping never lists a gap before all
of its dependencies that are themselves gaps of the void map; the id
uniqueness required of a void map (data model invariant, and guaranteed
by the discovery engine for dict inputs) enters as a hypothesis. -/
theorem gap_hopping_respects_dependencies (vm : VoidMap)
    (hids : (vm.gaps.map Gap.id).Nodup) :
    depsRespected vm.gaps (((gapHopping vm).path).map PathStep.gapId) := by
  by_cases hE : vm.gaps.isEmpty
  · have hpath : (gapHopping vm).path = [] := by
      unfold gapHopping
      rw [if_pos hE]
    rw [hpath]
    unfold depsRespected
    intro j g2 _ hj
    simp at hj
  · have hpath : (gapHopping vm).path
        = hopLoop vm.gaps (hopEdges vm.gaps) (2 * vm.gaps.length + 1)
            (sortDescBy gapWeight (vm.gaps.filter
              (fun g => g.fillable && inDeg (hopEdges vm.gaps) g.id = 0))) [] [] := by
      unfold gapHopping
      rw [if_neg hE]
    rw [hpath]
    apply hopLoop_good vm.gaps hids
    · intro x
      simp
    · intro g hg
      obtain ⟨hgm, hcond⟩ := List.mem_filter.mp (mem_sortDescBy.mp hg)
      refine ⟨hgm, fun dep hd hk => ?_⟩
      exfalso
      have hedge : (dep, g.id) ∈ hopEdges vm.gaps := mem_hopEdges hgm hd hk
      have hzero : inDeg (hopEdges vm.gaps) g.id = 0 := by
        simp at hcond
        exact hcond.2
      unfold inDeg at hzero
      rw [List.length_eq_zero] at hzero
      have hcontra : (dep, g.id) ∈ (hopEdges vm.gaps).filter
          (fun e => decide (e.2 = g.id)) :=
        List.mem_filter.mpr ⟨hedge, by simp⟩
      rw [hzero] at hcontra
      simp at hcontra
    · unfold depsRespected
      intro j g2 _ hj
      simp at hj

/-- A dependent gap chain for the C4 witness. -/
def chainGapA : Gap :=
  { id := "a", description := "gap a", void_type := .DEPENDENCY_GAP,
    domains := ["general"], evidence := [], manifestations := [],
    criticality := .HIGH, certainty := .DEFINITE }

/-- A gap depending on chainGapA. -/
def chainGapB : Gap :=
  { id := "b", description := "gap b", void_type := .INFORMATION_GAP,
    domains := ["general"], evidence := [], manifestations := [],
    criticality := .BLOCKING, certainty := .DEFINITE, dependencies := ["a"] }

/-- A gap depending on chainGapB. -/
def chainGapC : Gap :=
  { id := "c", description := "gap c", void_type := .CAUSAL_GAP,
    domains := ["general"], evidence := [], manifestations := [],
    criticality := .LOW, certainty := .DEFINITE, dependencies := ["b"] }

/-- A void map holding the three-gap dependency chain in scrambled
order. -/
def chainMap : VoidMap :=
  { id := "chain", point_a := [], point_b := [], gaps := [chainGapC, chainGapB, chainGapA] }

/-- Witness for C4 on the concrete three-gap chain. -/
theorem gap_hopping_respects_dependencies_witness :
    ((chainMap.gaps.map Gap.id).Nodup) ∧
      depsRespected chainMap.gaps (((gapHopping chainMap).path).map PathStep.gapId) :=
  ⟨by decide, gap_hopping_respects_dependencies chainMap (by decide)⟩

end NegSpace
